import Mathlib

/-!
Verification of the approval-coordination daemon (`src/server.ts`,
`src/socket.ts`, `src/utils.ts`) against its natural-language specification.

The embedding models JSON values, the `createRequestHash` fingerprint from
`utils.ts` (including the exact semantics of `JSON.stringify` with an array
replacer: at every nesting level only properties whose names occur in the
replacer array are serialized, in the order of that array), and the server's
in-memory state machine: the `pendingRequests`, `tsToPendingId`,
`sessionApprovals` and `recentRequestHashes` maps together with every Slack /
socket event handler.  JavaScript `Map`s are modelled as insertion-ordered
association lists; external nondeterminism (generated ids, clock readings,
the result of `chat.postMessage`) is passed in as parameters; I/O performed
by a handler is returned as a list of effects.
-/

/-- A JSON value, as produced by `JSON.parse` / consumed by `JSON.stringify`.
Objects keep their fields in property-insertion order, as JavaScript does. -/
inductive Json where
  | null : Json
  | bool (b : Bool) : Json
  | num (n : Int) : Json
  | str (s : String) : Json
  | arr (elems : List Json) : Json
  | obj (fields : List (String × Json)) : Json
deriving Repr

mutual
/-- Decidable equality of JSON values. -/
def Json.decEq : (a b : Json) → Decidable (a = b)
  | .null, .null => isTrue rfl
  | .bool a, .bool b =>
    if h : a = b then isTrue (by rw [h]) else isFalse (by simp [h])
  | .num a, .num b =>
    if h : a = b then isTrue (by rw [h]) else isFalse (by simp [h])
  | .str a, .str b =>
    if h : a = b then isTrue (by rw [h]) else isFalse (by simp [h])
  | .arr a, .arr b =>
    match Json.decEqList a b with
    | isTrue h => isTrue (by rw [h])
    | isFalse h => isFalse (by simp [h])
  | .obj a, .obj b =>
    match Json.decEqFields a b with
    | isTrue h => isTrue (by rw [h])
    | isFalse h => isFalse (by simp [h])
  | .null, .bool _ => isFalse (fun h => Json.noConfusion h)
  | .null, .num _ => isFalse (fun h => Json.noConfusion h)
  | .null, .str _ => isFalse (fun h => Json.noConfusion h)
  | .null, .arr _ => isFalse (fun h => Json.noConfusion h)
  | .null, .obj _ => isFalse (fun h => Json.noConfusion h)
  | .bool _, .null => isFalse (fun h => Json.noConfusion h)
  | .bool _, .num _ => isFalse (fun h => Json.noConfusion h)
  | .bool _, .str _ => isFalse (fun h => Json.noConfusion h)
  | .bool _, .arr _ => isFalse (fun h => Json.noConfusion h)
  | .bool _, .obj _ => isFalse (fun h => Json.noConfusion h)
  | .num _, .null => isFalse (fun h => Json.noConfusion h)
  | .num _, .bool _ => isFalse (fun h => Json.noConfusion h)
  | .num _, .str _ => isFalse (fun h => Json.noConfusion h)
  | .num _, .arr _ => isFalse (fun h => Json.noConfusion h)
  | .num _, .obj _ => isFalse (fun h => Json.noConfusion h)
  | .str _, .null => isFalse (fun h => Json.noConfusion h)
  | .str _, .bool _ => isFalse (fun h => Json.noConfusion h)
  | .str _, .num _ => isFalse (fun h => Json.noConfusion h)
  | .str _, .arr _ => isFalse (fun h => Json.noConfusion h)
  | .str _, .obj _ => isFalse (fun h => Json.noConfusion h)
  | .arr _, .null => isFalse (fun h => Json.noConfusion h)
  | .arr _, .bool _ => isFalse (fun h => Json.noConfusion h)
  | .arr _, .num _ => isFalse (fun h => Json.noConfusion h)
  | .arr _, .str _ => isFalse (fun h => Json.noConfusion h)
  | .arr _, .obj _ => isFalse (fun h => Json.noConfusion h)
  | .obj _, .null => isFalse (fun h => Json.noConfusion h)
  | .obj _, .bool _ => isFalse (fun h => Json.noConfusion h)
  | .obj _, .num _ => isFalse (fun h => Json.noConfusion h)
  | .obj _, .str _ => isFalse (fun h => Json.noConfusion h)
  | .obj _, .arr _ => isFalse (fun h => Json.noConfusion h)

/-- Decidable equality of JSON value lists. -/
def Json.decEqList : (a b : List Json) → Decidable (a = b)
  | [], [] => isTrue rfl
  | [], _ :: _ => isFalse (fun h => List.noConfusion h)
  | _ :: _, [] => isFalse (fun h => List.noConfusion h)
  | x :: xs, y :: ys =>
    match Json.decEq x y, Json.decEqList xs ys with
    | isTrue h1, isTrue h2 => isTrue (by rw [h1, h2])
    | isFalse h1, _ => isFalse (by simp [h1])
    | _, isFalse h2 => isFalse (by simp [h2])

/-- Decidable equality of JSON field lists. -/
def Json.decEqFields : (a b : List (String × Json)) → Decidable (a = b)
  | [], [] => isTrue rfl
  | [], _ :: _ => isFalse (fun h => List.noConfusion h)
  | _ :: _, [] => isFalse (fun h => List.noConfusion h)
  | (k1, v1) :: xs, (k2, v2) :: ys =>
    if hk : k1 = k2 then
      match Json.decEq v1 v2, Json.decEqFields xs ys with
      | isTrue h1, isTrue h2 => isTrue (by rw [hk, h1, h2])
      | isFalse h1, _ => isFalse (by simp [h1])
      | _, isFalse h2 => isFalse (by simp [h2])
    else isFalse (by simp [hk])
end

instance : DecidableEq Json := Json.decEq

/-- One hexadecimal digit, used for `\u00XX` escapes of control characters. -/
def hexDigit (n : Nat) : String :=
  if n < 10 then toString n
  else if n = 10 then "a" else if n = 11 then "b" else if n = 12 then "c"
  else if n = 13 then "d" else if n = 14 then "e" else "f"

/-- How `JSON.stringify` escapes a single character inside a string literal. -/
def jsQuoteChar (c : Char) : String :=
  if c = '"' then "\\\""
  else if c = '\\' then "\\\\"
  else if c = '\n' then "\\n"
  else if c = '\r' then "\\r"
  else if c = '\t' then "\\t"
  else if c = '\x08' then "\\b"
  else if c = '\x0c' then "\\f"
  else if c.toNat < 32 then "\\u00" ++ hexDigit (c.toNat / 16) ++ hexDigit (c.toNat % 16)
  else String.singleton c

/-- `JSON.stringify`'s rendering of a string value (quoted and escaped). -/
def jsQuote (s : String) : String :=
  "\"" ++ String.join (s.toList.map jsQuoteChar) ++ "\""

mutual
/-- `JSON.stringify(value)` without a replacer: every object field is
serialized, in property-insertion order. -/
def Json.render : Json → String
  | .null => "null"
  | .bool true => "true"
  | .bool false => "false"
  | .num n => toString n
  | .str s => jsQuote s
  | .arr xs => "[" ++ Json.renderList xs ++ "]"
  | .obj fs => "\x7b" ++ Json.renderFields fs ++ "\x7d"

/-- Comma-separated rendering of array elements. -/
def Json.renderList : List Json → String
  | [] => ""
  | [x] => Json.render x
  | x :: y :: xs => Json.render x ++ "," ++ Json.renderList (y :: xs)

/-- Comma-separated rendering of object fields. -/
def Json.renderFields : List (String × Json) → String
  | [] => ""
  | [(k, v)] => jsQuote k ++ ":" ++ Json.render v
  | (k, v) :: f :: fs => jsQuote k ++ ":" ++ Json.render v ++ "," ++ Json.renderFields (f :: fs)
end

/-- First field of a JS object with the given name (property access). -/
def jField (fields : List (String × Json)) (k : String) : Option Json :=
  (fields.find? (fun kv => kv.1 == k)).map (fun kv => kv.2)

mutual
/-- The filtering `JSON.stringify(value, propertyList)` applies when the
replacer is an array: at every nesting level, an object keeps exactly the
properties named in the list, in the list's order (ECMA-262
SerializeJSONObject with `PropertyList`); array elements are kept as-is. -/
def jsonFilter (allow : List String) : Json → Json
  | .arr xs => .arr (jsonFilterList allow xs)
  | .obj fs => .obj (jsonSelect allow (jsonFilterFields allow fs))
  | j => j

/-- Filter each element of an array. -/
def jsonFilterList (allow : List String) : List Json → List Json
  | [] => []
  | x :: xs => jsonFilter allow x :: jsonFilterList allow xs

/-- Filter the value of each field. -/
def jsonFilterFields (allow : List String) : List (String × Json) → List (String × Json)
  | [] => []
  | (k, v) :: fs => (k, jsonFilter allow v) :: jsonFilterFields allow fs

/-- Keep exactly the fields named in `allow`, in `allow`'s order. -/
def jsonSelect (allow : List String) (fs : List (String × Json)) : List (String × Json)
  :=
  match allow with
  | [] => []
  | k :: ks =>
    match jField fs k with
    | some v => (k, v) :: jsonSelect ks fs
    | none => jsonSelect ks fs
end

/-- `JSON.stringify(value, keyList)` with an array replacer. -/
def stringifyWithKeyList (allow : List String) (j : Json) : String :=
  Json.render (jsonFilter allow j)

/-- Insert a string into a sorted list (JavaScript default string order:
lexicographic comparison). -/
def insertSorted (s : String) : List String → List String
  | [] => [s]
  | t :: ts => if s ≤ t then s :: t :: ts else t :: insertSorted s ts

/-- `Array.prototype.sort()` on an array of strings. -/
def sortStrings : List String → List String
  | [] => []
  | s :: ss => insertSorted s (sortStrings ss)

/-- `createRequestHash` from `src/utils.ts`:
`toolName + ":" + JSON.stringify(toolInput, Object.keys(toolInput).sort())`.
`Object.keys` lists the fields in insertion order; the sorted key array acts
as a `JSON.stringify` replacer, i.e. a property allowlist at every level. -/
def createRequestHash (toolName : String) (toolInput : List (String × Json)) : String :=
  let keys := sortStrings (toolInput.map (fun kv => kv.1))
  toolName ++ ":" ++ stringifyWithKeyList keys (Json.obj toolInput)

/-- One labeled option of a question (`QuestionOption` in `src/types.ts`). -/
structure QuestionOption where
  label : String
  description : Option String := none
deriving DecidableEq, Repr

/-- One question of an `AskUserQuestion` request (`Question` in `src/types.ts`).
`multiSelect?: boolean` is optional, hence `Option Bool`. -/
structure Question where
  question : String
  header : Option String := none
  options : List QuestionOption := []
  multiSelect : Option Bool := none
deriving DecidableEq, Repr

/-- JavaScript truthiness of the optional `multiSelect` flag. -/
def Question.isMultiSelect (q : Question) : Bool := q.multiSelect.getD false

/-- `PermissionRequest` from `src/types.ts`: `{type, tool_name, tool_input,
session_id}` with `tool_input: Record<string, unknown>` modelled as a JSON
object's field list. -/
structure PermissionRequest where
  type : String
  tool_name : String
  tool_input : List (String × Json)
  session_id : String
deriving DecidableEq, Repr

/-- A decoded request line: either a `PermissionRequest` or a
`UserQuestionRequest` (`{type:'user_question', session_id, questions}`). -/
inductive Request where
  | perm (p : PermissionRequest) : Request
  | userQuestion (session_id : String) (questions : List Question) : Request
deriving DecidableEq, Repr

/-- `request.session_id` (present on both variants). -/
def Request.sessionId : Request → String
  | .perm p => p.session_id
  | .userQuestion sid _ => sid

/-- `isQuestionRequest` from `src/server.ts`: true when `tool_name` is
`AskUserQuestion`, or when `type` is `user_question`. -/
def isQuestionRequest : Request → Bool
  | .perm p => p.tool_name == "AskUserQuestion" || p.type == "user_question"
  | .userQuestion _ _ => true

/-- Reading a string-valued JSON field, `undefined`/non-string giving `none`. -/
def asString : Option Json → Option String
  | some (.str s) => some s
  | _ => none

/-- Reading a boolean-valued JSON field, `undefined`/non-boolean giving `none`. -/
def asBool : Option Json → Option Bool
  | some (.bool b) => some b
  | _ => none

/-- The TypeScript cast of a JSON value to `QuestionOption` (field reads). -/
def decodeQuestionOption (j : Json) : QuestionOption :=
  match j with
  | .obj fs =>
    { label := (asString (jField fs "label")).getD ""
      description := asString (jField fs "description") }
  | _ => { label := "" }

/-- The TypeScript cast of a JSON value to `Question` (field reads). -/
def decodeQuestion (j : Json) : Question :=
  match j with
  | .obj fs =>
    { question := (asString (jField fs "question")).getD ""
      header := asString (jField fs "header")
      options :=
        match jField fs "options" with
        | some (.arr xs) => xs.map decodeQuestionOption
        | _ => []
      multiSelect := asBool (jField fs "multiSelect") }
  | _ => { question := "" }

/-- `tool_input.questions || []` cast to `Question[]`: reading the questions
stored inside an `AskUserQuestion` permission request's `tool_input`. -/
def questionsOfToolInput (tool_input : List (String × Json)) : List Question :=
  match jField tool_input "questions" with
  | some (.arr xs) => xs.map decodeQuestion
  | _ => []

/-- `getQuestions` from `src/server.ts`: the `questions` field of a
`UserQuestionRequest`, else `tool_input.questions || []`. -/
def getQuestions : Request → List Question
  | .userQuestion _ qs => qs
  | .perm p => questionsOfToolInput p.tool_input

/-- A recorded answer for one question: `string | string[]` in
`PendingRequest.answers` (`src/types.ts`). -/
inductive Answer where
  | single (s : String) : Answer
  | multi (labels : List String) : Answer
deriving DecidableEq, Repr

/-- `PendingRequest` from `src/types.ts`.  Sockets are identified by numbers;
`socket: Socket | null` is an `Option Nat`, and the optional
`additionalSockets?: Socket[]` is an `Option (List Nat)` (absent vs `[]`).
`answers` is a JS object keyed by the decimal question index. -/
structure PendingRequest where
  id : String
  socket : Option Nat
  additionalSockets : Option (List Nat) := none
  request : Request
  slackTs : Option String := none
  slackChannel : Option String := none
  createdAt : Nat
  isQuestion : Bool
  answers : Option (List (String × Answer)) := none
deriving DecidableEq, Repr

/-- One entry of the `recentRequestHashes` deduplication map:
`{ requestId, timestamp }`. -/
structure DedupEntry where
  requestId : String
  timestamp : Nat
deriving DecidableEq, Repr

/-- `DEDUP_WINDOW_MS = 30000` from `src/server.ts`. -/
def DEDUP_WINDOW_MS : Nat := 30000

/-- The server's four module-level maps (`src/server.ts` lines 23-34),
each a JavaScript `Map`/`Set` modelled as an insertion-ordered list. -/
structure ServerState where
  pendingRequests : List (String × PendingRequest) := []
  tsToPendingId : List (String × String) := []
  sessionApprovals : List (String × List String) := []
  recentRequestHashes : List (String × DedupEntry) := []
deriving DecidableEq, Repr

/-- `Map.prototype.get`. -/
def getA {α : Type} (m : List (String × α)) (k : String) : Option α :=
  (m.find? (fun kv => kv.1 == k)).map (fun kv => kv.2)

/-- `Map.prototype.set`: overwrites in place when the key exists (keeping its
insertion position), otherwise appends. -/
def setA {α : Type} (m : List (String × α)) (k : String) (v : α) : List (String × α) :=
  if m.any (fun kv => kv.1 == k) then
    m.map (fun kv => if kv.1 == k then (k, v) else kv)
  else m ++ [(k, v)]

/-- `Map.prototype.delete`. -/
def eraseA {α : Type} (m : List (String × α)) (k : String) : List (String × α) :=
  m.filter (fun kv => kv.1 != k)

/-- `Set.prototype.add` on a set of strings. -/
def setAdd (s : List String) (x : String) : List String :=
  if x ∈ s then s else s ++ [x]

/-- The approval fingerprints cached for a session
(`sessionApprovals.get(sessionId)`, the empty set when absent). -/
def cacheOf (st : ServerState) (sessionId : String) : List String :=
  (getA st.sessionApprovals sessionId).getD []

/-- A terminal decision value (`'allow' | 'deny'`). -/
inductive Decision where
  | allow : Decision
  | deny : Decision
deriving DecidableEq, Repr

/-- The JSON string of a decision. -/
def Decision.toText : Decision → String
  | .allow => "allow"
  | .deny => "deny"

/-- Observable I/O actions a handler performs: socket writes and closes,
`chat.postMessage` (publishing a prompt), `chat.update` (with the plain-text
summary passed as `text`; the rich block layout is display formatting outside
the modelled core), and `views.open` of the custom-answer modal. -/
inductive Effect where
  | write (conn : Nat) (data : String) : Effect
  | closeConn (conn : Nat) : Effect
  | postMessage : Effect
  | chatUpdate (channel ts text : String) : Effect
  | openModal (requestId : String) (questionIndex : Nat) : Effect
deriving DecidableEq, Repr

/-- Parse a leading run of decimal digits, `none` when there is none
(`parseInt(s, 10)` returning `NaN`). -/
def parseIntPrefix : List Char → Nat → Bool → Option Nat
  | [], acc, seen => if seen then some acc else none
  | c :: rest, acc, seen =>
    if c.isDigit then parseIntPrefix rest (acc * 10 + (c.toNat - 48)) true
    else if seen then some acc else none

/-- `parseInt(s, 10)` for the non-negative keys used by `answers`. -/
def parseInt10 (s : String) : Option Nat := parseIntPrefix s.toList 0 false

/-- `Array.isArray(answer) ? answer.join(', ') : answer` when converting a
recorded answer for the hook reply. -/
def joinAnswer : Answer → String
  | .single s => s
  | .multi l => String.intercalate ", " l

/-- Ascending insertion by the numeric value of the key. -/
def insertByNumericKey (kv : String × Answer) :
    List (String × Answer) → List (String × Answer)
  | [] => [kv]
  | x :: xs =>
    if (parseInt10 kv.1).getD 0 ≤ (parseInt10 x.1).getD 0 then kv :: x :: xs
    else x :: insertByNumericKey kv xs

/-- `Object.entries(answers)`: JavaScript enumerates integer-like object keys
(here the decimal question indices) in ascending numeric order. -/
def answersEntries : List (String × Answer) → List (String × Answer)
  | [] => []
  | kv :: rest => insertByNumericKey kv (answersEntries rest)

/-- The `questionKeyedAnswers` loop of `buildHookOutput`: each indexed answer
whose index names an existing question becomes a field keyed by the full
question text, arrays joined with `", "`. -/
def questionKeyedAnswers (questions : List Question)
    (answers : List (String × Answer)) : List (String × Json) :=
  (answersEntries answers).foldl
    (fun acc kv =>
      match parseInt10 kv.1 with
      | none => acc
      | some n =>
        match questions[n]? with
        | some q => setA acc q.question (Json.str (joinAnswer kv.2))
        | none => acc)
    []

/-- `buildHookOutput` from `src/server.ts`, as the JSON reply value.  Returns
`none` exactly where the JavaScript throws: when answers are attached for an
allow decision but `pending.request` is a `UserQuestionRequest`, whose
`tool_input` is `undefined` (so reading `.questions` raises a TypeError). -/
def buildHookOutput (pending : PendingRequest) (decision : Decision)
    (answers : Option (List (String × Answer))) : Option Json :=
  if pending.isQuestion then
    let base : List (String × Json) :=
      [("hookEventName", Json.str "PreToolUse"),
       ("permissionDecision", Json.str decision.toText),
       ("permissionDecisionReason",
        Json.str (if decision = .allow then "Approved via Slack" else "Denied via Slack"))]
    match answers, decision with
    | some ans, .allow =>
      match pending.request with
      | .perm p =>
        let questions := questionsOfToolInput p.tool_input
        let updatedInput :=
          setA p.tool_input "answers" (Json.obj (questionKeyedAnswers questions ans))
        some (Json.obj [("hookSpecificOutput",
          Json.obj (base ++ [("updatedInput", Json.obj updatedInput)]))])
      | .userQuestion _ _ => none
    | _, _ => some (Json.obj [("hookSpecificOutput", Json.obj base)])
  else
    let dec : List (String × Json) :=
      if decision = .deny then
        [("behavior", Json.str decision.toText), ("message", Json.str "Denied via Slack")]
      else [("behavior", Json.str decision.toText)]
    some (Json.obj [("hookSpecificOutput", Json.obj
      [("hookEventName", Json.str "PermissionRequest"), ("decision", Json.obj dec)])])

/-- Write one reply line to each connection and close it. -/
def writeAndClose (conns : List Nat) (s : String) : List Effect :=
  match conns with
  | [] => []
  | c :: cs => Effect.write c s :: Effect.closeConn c :: writeAndClose cs s

/-- `sendResponse` from `src/server.ts`: serialize the hook output once, write
that line to the primary socket (when still attached) and to every duplicate
socket, close them, then delete the `tsToPendingId` entry (when a Slack `ts`
exists) and the pending request itself.  In the TypeError case of
`buildHookOutput` nothing is written and nothing is removed. -/
def sendResponse (st : ServerState) (pending : PendingRequest) (decision : Decision)
    (answers : Option (List (String × Answer))) : ServerState × List Effect :=
  match buildHookOutput pending decision answers with
  | none => (st, [])
  | some response =>
    let responseStr := Json.render response ++ "\n"
    let effs := writeAndClose (pending.socket.toList ++ pending.additionalSockets.getD []) responseStr
    let ts' :=
      match pending.slackTs with
      | some ts => eraseA st.tsToPendingId ts
      | none => st.tsToPendingId
    ({ st with tsToPendingId := ts'
               pendingRequests := eraseA st.pendingRequests pending.id }, effs)

/-- The approval block shared verbatim by the approve-button, approve-reaction
and approve-text handlers: cache the fingerprint for the session, update the
Slack message, send the allow reply. -/
def approvePermBody (st : ServerState) (pending : PendingRequest)
    (p : PermissionRequest) : ServerState × List Effect :=
  let hash := createRequestHash p.tool_name p.tool_input
  let newCache := setA st.sessionApprovals p.session_id (setAdd (cacheOf st p.session_id) hash)
  let st1 := { st with sessionApprovals := newCache }
  let updates :=
    match pending.slackTs, pending.slackChannel with
    | some ts, some ch => [Effect.chatUpdate ch ts "✅ Claude Code Request Approved"]
    | _, _ => []
  let r := sendResponse st1 pending .allow none
  (r.1, updates ++ r.2)

/-- The denial block shared verbatim by the deny-button, deny-reaction and
deny-text handlers: update the Slack message, send the deny reply.  The
session cache is not touched. -/
def denyPermBody (st : ServerState) (pending : PendingRequest) :
    ServerState × List Effect :=
  let updates :=
    match pending.slackTs, pending.slackChannel with
    | some ts, some ch => [Effect.chatUpdate ch ts "❌ Claude Code Request Denied"]
    | _, _ => []
  let r := sendResponse st pending .deny none
  (r.1, updates ++ r.2)

/-- `slackApp.action('approve')`: resolve the pending request of the button's
value with an approval.  The `.userQuestion` branch is unreachable from states
built by `handleRequest` (that variant always has `isQuestion = true` and such
prompts carry no buttons); in JavaScript `createRequestHash` would throw on
its undefined `tool_name`. -/
def handleApproveAction (st : ServerState) (requestId : String) :
    ServerState × List Effect :=
  match getA st.pendingRequests requestId with
  | none => (st, [])
  | some pending =>
    match pending.request with
    | .perm p => approvePermBody st pending p
    | .userQuestion _ _ => (st, [])

/-- `slackApp.action('deny')`: resolve the pending request of the button's
value with a denial (unreachable `.userQuestion` branch as in approval). -/
def handleDenyAction (st : ServerState) (requestId : String) :
    ServerState × List Effect :=
  match getA st.pendingRequests requestId with
  | none => (st, [])
  | some pending =>
    match pending.request with
    | .perm _ => denyPermBody st pending
    | .userQuestion _ _ => (st, [])

/-- The emoji names accepted as approval reactions. -/
def approveReactions : List String := ["+1", "thumbsup", "white_check_mark", "heavy_check_mark"]

/-- The emoji names accepted as denial reactions. -/
def denyReactions : List String := ["-1", "thumbsdown", "x", "no_entry"]

/-- `slackApp.event('reaction_added')`: look the message `ts` up in
`tsToPendingId`, skip questions, then approve or deny by emoji name. -/
def handleReactionAdded (st : ServerState) (messageTs : String) (reaction : String) :
    ServerState × List Effect :=
  match getA st.tsToPendingId messageTs with
  | none => (st, [])
  | some requestId =>
    match getA st.pendingRequests requestId with
    | none => (st, [])
    | some pending =>
      if pending.isQuestion then (st, [])
      else
        match pending.request with
        | .perm p =>
          if approveReactions.contains reaction then approvePermBody st pending p
          else if denyReactions.contains reaction then denyPermBody st pending
          else (st, [])
        | .userQuestion _ _ => (st, [])

/-- An inbound Slack message event, with the fields the handler reads. -/
structure MessageEvent where
  channel : String
  text : Option String
  thread_ts : Option String := none
  msgSubtype : Option String := none
  bot_id : Option String := none
deriving DecidableEq, Repr

/-- ASCII lowercasing of one character (`String.prototype.toLowerCase` on the
ASCII vocabulary this handler compares against). -/
def jsToLowerChar (c : Char) : Char :=
  if 'A' ≤ c ∧ c ≤ 'Z' then Char.ofNat (c.toNat + 32) else c

/-- `text.toLowerCase()`. -/
def jsToLowerCase (s : String) : String := String.mk (s.toList.map jsToLowerChar)

/-- The whitespace characters `String.prototype.trim` strips (the common
ASCII ones). -/
def jsIsWhitespace (c : Char) : Bool :=
  c = ' ' || c = '\t' || c = '\n' || c = '\r' || c = '\x0c' || c = '\x0b'

/-- `text.trim()`. -/
def jsTrim (s : String) : String :=
  String.mk (((s.toList.dropWhile jsIsWhitespace).reverse.dropWhile jsIsWhitespace).reverse)

/-- The reply texts accepted as approval. -/
def approveTexts : List String := ["ok", "approve", "yes", "y", "allow", "go"]

/-- The reply texts accepted as denial. -/
def denyTexts : List String := ["no", "deny", "reject", "n", "stop", "cancel"]

/-- The direct-channel lookup loop of the message handler: the first entry of
`pendingRequests`, in insertion order, whose `slackChannel` equals the
message's channel and which is not a question. -/
def findFirstPermPending (st : ServerState) (channel : String) :
    Option (String × PendingRequest) :=
  st.pendingRequests.find?
    (fun kv => kv.2.slackChannel == some channel && !kv.2.isQuestion)

/-- `slackApp.message(...)`: skip bot messages and edits; resolve the target
request by `thread_ts` for thread replies, otherwise by the first matching
non-question pending request for the channel; skip questions; then approve or
deny when the lowercased trimmed text is in the respective vocabulary. -/
def handleMessage (st : ServerState) (msg : MessageEvent) : ServerState × List Effect :=
  if msg.msgSubtype.isSome || msg.bot_id.isSome then (st, [])
  else
    let requestId? :=
      match msg.thread_ts with
      | some t => getA st.tsToPendingId t
      | none => (findFirstPermPending st msg.channel).map (fun kv => kv.1)
    match requestId? with
    | none => (st, [])
    | some requestId =>
      match getA st.pendingRequests requestId with
      | none => (st, [])
      | some pending =>
        if pending.isQuestion then (st, [])
        else
          match pending.request with
          | .perm p =>
            match msg.text with
            | none => (st, [])
            | some rawText =>
              let text := jsTrim (jsToLowerCase rawText)
              if approveTexts.contains text then approvePermBody st pending p
              else if denyTexts.contains text then denyPermBody st pending
              else (st, [])
          | .userQuestion _ _ => (st, [])

/-- The decoded `action.value` of a question option button:
`{requestId, questionIndex, optionIndex, label}` (`optionIndex` is `-1` for
the "Other" option). -/
structure QuestionActionData where
  requestId : String
  questionIndex : Nat
  optionIndex : Int
  label : String
deriving DecidableEq, Repr

/-- The multi-select toggle: remove the label's first occurrence when present
(`indexOf` + `splice`), otherwise `push` it at the end. -/
def toggleLabel (label : String) (cur : List String) : List String :=
  if cur.contains label then cur.erase label else cur ++ [label]

/-- `(pending.answers[i] as string[]) || []`: absent and empty-string answers
coerce to `[]`; array answers are used as-is; a non-empty string answer makes
the subsequent `push`/`splice` throw (`none`). -/
def answersArrayForToggle : Option Answer → Option (List String)
  | none => some []
  | some (.multi l) => some l
  | some (.single s) => if s = "" then some [] else none

/-- The per-question completion test of the option-button handler:
`Array.isArray(answer) && answer.length > 0` for multi-select questions,
`answer !== undefined && answer !== ''` otherwise (an array answer is neither
`undefined` nor the string `''`). -/
def answeredOption (q : Question) (ans : Option Answer) : Bool :=
  if q.isMultiSelect then
    match ans with
    | some (.multi l) => !l.isEmpty
    | _ => false
  else
    match ans with
    | none => false
    | some (.single s) => s != ""
    | some (.multi _) => true

/-- `questions.every(...)` of the option-button handler. -/
def allAnsweredOption (questions : List Question)
    (answers : List (String × Answer)) : Bool :=
  questions.enum.all (fun iq => answeredOption iq.2 (getA answers (toString iq.1)))

/-- The per-question completion test of the modal-submit handler, which does
not distinguish multi-select questions: `answer !== undefined && answer !== ''`. -/
def answeredView (ans : Option Answer) : Bool :=
  match ans with
  | none => false
  | some (.single s) => s != ""
  | some (.multi _) => true

/-- `questions.every(...)` of the modal-submit handler. -/
def allAnsweredView (questions : List Question)
    (answers : List (String × Answer)) : Bool :=
  questions.enum.all (fun iq => answeredView (getA answers (toString iq.1)))

/-- `slackApp.action(/^question_\d+_(\d+|other)$/)`: open the modal for the
"Other" option; otherwise record the selection (toggling for multi-select
questions) and, when every question is answered and no question is
multi-select, resolve with an allow reply.  Where JavaScript would throw
(missing question index, or toggling a non-array answer) the state keeps the
mutations already performed (the `answers` initialisation) and nothing more
happens. -/
def handleQuestionAction (st : ServerState) (d : QuestionActionData) :
    ServerState × List Effect :=
  match getA st.pendingRequests d.requestId with
  | none => (st, [])
  | some pending =>
    let questions := getQuestions pending.request
    if d.optionIndex == -1 then
      (st, [Effect.openModal d.requestId d.questionIndex])
    else
      let answers0 := pending.answers.getD []
      let pendingInit : PendingRequest := { pending with answers := some answers0 }
      let crashed : ServerState × List Effect :=
        ({ st with pendingRequests := setA st.pendingRequests d.requestId pendingInit }, [])
      match questions[d.questionIndex]? with
      | none => crashed
      | some question =>
        let newAnswers? : Option (List (String × Answer)) :=
          if question.isMultiSelect then
            match answersArrayForToggle (getA answers0 (toString d.questionIndex)) with
            | some cur =>
              some (setA answers0 (toString d.questionIndex)
                (Answer.multi (toggleLabel d.label cur)))
            | none => none
          else
            some (setA answers0 (toString d.questionIndex) (Answer.single d.label))
        match newAnswers? with
        | none => crashed
        | some newAnswers =>
          let pending1 := { pending with answers := some newAnswers }
          let st1 := { st with pendingRequests := setA st.pendingRequests d.requestId pending1 }
          if allAnsweredOption questions newAnswers
              && !(questions.any Question.isMultiSelect) then
            let updates :=
              match pending1.slackTs, pending1.slackChannel with
              | some ts, some ch => [Effect.chatUpdate ch ts "✅ Claude Code Question Answered"]
              | _, _ => []
            let r := sendResponse st1 pending1 .allow (some newAnswers)
            (r.1, updates ++ r.2)
          else (st1, [])

/-- `slackApp.view('question_other_submit')`: record the custom text as the
question's answer, then resolve with an allow reply as soon as every question
has a defined, non-empty answer — with no multi-select exception. -/
def handleQuestionOtherSubmit (st : ServerState) (requestId : String)
    (questionIndex : Nat) (customAnswer : String) : ServerState × List Effect :=
  match getA st.pendingRequests requestId with
  | none => (st, [])
  | some pending =>
    let questions := getQuestions pending.request
    let answers0 := pending.answers.getD []
    let newAnswers := setA answers0 (toString questionIndex) (Answer.single customAnswer)
    let pending1 := { pending with answers := some newAnswers }
    let st1 := { st with pendingRequests := setA st.pendingRequests requestId pending1 }
    if allAnsweredView questions newAnswers then
      let updates :=
        match pending1.slackTs, pending1.slackChannel with
        | some ts, some ch => [Effect.chatUpdate ch ts "✅ Claude Code Question Answered"]
        | _, _ => []
      let r := sendResponse st1 pending1 .allow (some newAnswers)
      (r.1, updates ++ r.2)
    else (st1, [])

/-- `slackApp.action(/^confirm_multiselect_\d+$/)`: resolve the pending
request with an allow reply carrying `pending.answers || {}`. -/
def handleConfirmMultiselect (st : ServerState) (requestId : String) :
    ServerState × List Effect :=
  match getA st.pendingRequests requestId with
  | none => (st, [])
  | some pending =>
    let updates :=
      match pending.slackTs, pending.slackChannel, pending.answers with
      | some ts, some ch, some _ => [Effect.chatUpdate ch ts "✅ Claude Code Question Answered"]
      | _, _, _ => []
    let r := sendResponse st pending .allow (some (pending.answers.getD []))
    (r.1, updates ++ r.2)

/-- The `socket.on('close')` handler registered by `handleRequest`: when the
request is still pending, mark the Slack prompt as timed out and delete the
pending request from the registry. -/
def handleSocketClose (st : ServerState) (requestId : String) :
    ServerState × List Effect :=
  match getA st.pendingRequests requestId with
  | none => (st, [])
  | some pending =>
    let updates :=
      match pending.slackTs, pending.slackChannel with
      | some ts, some ch => [Effect.chatUpdate ch ts "⏱️ Claude Code Request Timed Out"]
      | _, _ => []
    ({ st with pendingRequests := eraseA st.pendingRequests requestId }, updates)

/-- The successful result of `chat.postMessage`: the new message's optional
`ts` and the actual channel id (`result.channel!`). -/
structure PublishOk where
  ts : Option String
  channel : String
deriving DecidableEq, Repr

/-- The deduplication hash computed at the top of `handleRequest`:
`q:<session>:<JSON of the question texts>` for questions, else
`p:<session>:<createRequestHash>`.  The `.userQuestion` branch of the
non-question case is unreachable (that variant is always a question). -/
def dedupHashOf (request : Request) : String :=
  if isQuestionRequest request then
    "q:" ++ request.sessionId ++ ":"
      ++ Json.render (Json.arr ((getQuestions request).map (fun q => Json.str q.question)))
  else
    match request with
    | .perm p => "p:" ++ p.session_id ++ ":" ++ createRequestHash p.tool_name p.tool_input
    | .userQuestion sid _ => "p:" ++ sid ++ ":"

/-- The immediate allow reply of the session-cache fast path. -/
def permAllowReply : String :=
  Json.render (Json.obj [("hookSpecificOutput", Json.obj
    [("hookEventName", Json.str "PermissionRequest"),
     ("decision", Json.obj [("behavior", Json.str "allow")])])]) ++ "\n"

/-- The immediate allow reply for a question request with no questions. -/
def emptyQuestionsReply : String :=
  Json.render (Json.obj [("hookSpecificOutput", Json.obj
    [("hookEventName", Json.str "PreToolUse"),
     ("permissionDecision", Json.str "allow"),
     ("permissionDecisionReason", Json.str "No questions to answer")])]) ++ "\n"

/-- `handleRequest` from `src/server.ts`.  `now` is the `Date.now()` reading,
`requestId` the value of `generateRequestId()`, and `publish` the outcome of
`chat.postMessage` (`none` models the call throwing). -/
def handleRequest (st : ServerState) (request : Request) (socket : Nat)
    (now : Nat) (requestId : String) (publish : Option PublishOk) :
    ServerState × List Effect :=
  let isQuestion := isQuestionRequest request
  let dedupHash := dedupHashOf request
  let attach? : Option (ServerState × List Effect) :=
    match getA st.recentRequestHashes dedupHash with
    | some existing =>
      if now - existing.timestamp < DEDUP_WINDOW_MS then
        match getA st.pendingRequests existing.requestId with
        | some ep =>
          let addl := some ((ep.additionalSockets.getD []) ++ ep.socket.toList ++ [socket])
          let ep1 := { ep with socket := none, additionalSockets := addl }
          some ({ st with pendingRequests := setA st.pendingRequests existing.requestId ep1 }, [])
        | none => none
      else none
    | none => none
  match attach? with
  | some r => r
  | none =>
    let newHashes := setA st.recentRequestHashes dedupHash ⟨requestId, now⟩
    let st1 := { st with recentRequestHashes := newHashes }
    let cacheHit :=
      if isQuestion then false
      else
        match request with
        | .perm p => (cacheOf st1 p.session_id).contains
            (createRequestHash p.tool_name p.tool_input)
        | .userQuestion _ _ => false
    if cacheHit then
      (st1, [Effect.write socket permAllowReply, Effect.closeConn socket])
    else
      let pending : PendingRequest :=
        { id := requestId, socket := some socket, request := request
          createdAt := now, isQuestion := isQuestion }
      let st2 := { st1 with pendingRequests := setA st1.pendingRequests requestId pending }
      if isQuestion && (getQuestions request).isEmpty then
        ({ st2 with pendingRequests := eraseA st2.pendingRequests requestId },
         [Effect.write socket emptyQuestionsReply, Effect.closeConn socket])
      else
        match publish with
        | none =>
          let effs :=
            match buildHookOutput pending .deny none with
            | some response =>
              [Effect.write socket (Json.render response ++ "\n"), Effect.closeConn socket]
            | none => []
          ({ st2 with pendingRequests := eraseA st2.pendingRequests requestId }, effs)
        | some ok =>
          let pending1 := { pending with slackTs := ok.ts, slackChannel := some ok.channel }
          let st3 := { st2 with pendingRequests := setA st2.pendingRequests requestId pending1 }
          let st4 :=
            match ok.ts with
            | some ts => { st3 with tsToPendingId := setA st3.tsToPendingId ts requestId }
            | none => st3
          (st4, [Effect.postMessage])

/-- The connection handler of `createSocketServer` (`src/socket.ts`) for one
complete line: on a `JSON.parse` success the decoded request goes to
`handleRequest`; on failure (or a synchronous throw from processing) a single
`{"decision":"deny"}` line is written and the connection closed. -/
def processLine (st : ServerState) (parsed : Option Request) (socket : Nat)
    (now : Nat) (requestId : String) (publish : Option PublishOk) :
    ServerState × List Effect :=
  match parsed with
  | none =>
    (st, [Effect.write socket (Json.render (Json.obj [("decision", Json.str "deny")]) ++ "\n"),
          Effect.closeConn socket])
  | some request => handleRequest st request socket now requestId publish

/-- The staleness threshold of the cleanup interval (2 hours). -/
def TWO_HOURS_MS : Nat := 2 * 60 * 60 * 1000

/-- The periodic cleanup (`setInterval` in `src/server.ts`): close and drop
pending requests older than two hours, and drop deduplication entries older
than the dedup window. -/
def sweep (st : ServerState) (now : Nat) : ServerState × List Effect :=
  let stale := st.pendingRequests.filter
    (fun kv => decide (TWO_HOURS_MS < now - kv.2.createdAt))
  let effs := stale.foldr
    (fun kv acc =>
      (kv.2.socket.toList ++ kv.2.additionalSockets.getD []).map Effect.closeConn ++ acc)
    []
  let pr := st.pendingRequests.filter
    (fun kv => !decide (TWO_HOURS_MS < now - kv.2.createdAt))
  let rh := st.recentRequestHashes.filter
    (fun kv => !decide (DEDUP_WINDOW_MS < now - kv.2.timestamp))
  ({ st with pendingRequests := pr, recentRequestHashes := rh }, effs)

/-- One external stimulus delivered to the daemon. -/
inductive Event where
  | request (parsed : Option Request) (socket : Nat) (now : Nat)
      (requestId : String) (publish : Option PublishOk) : Event
  | approveClick (requestId : String) : Event
  | denyClick (requestId : String) : Event
  | reaction (messageTs : String) (reactionName : String) : Event
  | message (msg : MessageEvent) : Event
  | questionOption (d : QuestionActionData) : Event
  | questionOtherSubmit (requestId : String) (questionIndex : Nat)
      (customAnswer : String) : Event
  | confirmMultiselect (requestId : String) : Event
  | socketClosed (requestId : String) : Event
  | sweepTick (now : Nat) : Event
deriving DecidableEq, Repr

/-- The daemon's event dispatch: one handler invocation per event. -/
def step (st : ServerState) : Event → ServerState × List Effect
  | .request parsed socket now requestId publish =>
    processLine st parsed socket now requestId publish
  | .approveClick requestId => handleApproveAction st requestId
  | .denyClick requestId => handleDenyAction st requestId
  | .reaction messageTs reactionName => handleReactionAdded st messageTs reactionName
  | .message msg => handleMessage st msg
  | .questionOption d => handleQuestionAction st d
  | .questionOtherSubmit requestId questionIndex customAnswer =>
    handleQuestionOtherSubmit st requestId questionIndex customAnswer
  | .confirmMultiselect requestId => handleConfirmMultiselect st requestId
  | .socketClosed requestId => handleSocketClose st requestId
  | .sweepTick now => sweep st now

/-- Run a sequence of events, accumulating all effects. -/
def runEvents (st : ServerState) : List Event → ServerState × List Effect
  | [] => (st, [])
  | e :: es =>
    let r := step st e
    let rest := runEvents r.1 es
    (rest.1, r.2 ++ rest.2)

/-! Concrete example data used by witnesses and counterexamples. -/

/-- A concrete Bash permission request. -/
def exReq : PermissionRequest :=
  { type := "PermissionRequest"
    tool_name := "Bash"
    tool_input := [("command", Json.str "echo hi")]
    session_id := "s1" }

/-- A concrete pending request for `exReq`, as `handleRequest` creates it
after a successful publish. -/
def exPending : PendingRequest :=
  { id := "r1"
    socket := some 1
    request := .perm exReq
    slackTs := some "T1"
    slackChannel := some "C1"
    createdAt := 1000
    isQuestion := false }

/-- A concrete server state holding `exPending` and its bookkeeping entries. -/
def exState : ServerState :=
  { pendingRequests := [("r1", exPending)]
    tsToPendingId := [("T1", "r1")]
    recentRequestHashes := [(dedupHashOf (.perm exReq), { requestId := "r1", timestamp := 1000 })] }

/-- A concrete state whose session cache already contains `exReq`'s
fingerprint (and no pending requests). -/
def exCachedState : ServerState :=
  { sessionApprovals := [("s1", [createRequestHash exReq.tool_name exReq.tool_input])] }

/-- The JSON of a single multi-select question named "Pick". -/
def exQuestionJson : Json :=
  Json.obj
    [("question", Json.str "Pick"),
     ("multiSelect", Json.bool true),
     ("options", Json.arr [Json.obj [("label", Json.str "A")],
                           Json.obj [("label", Json.str "B")]])]

/-- A concrete `AskUserQuestion` permission request carrying one multi-select
question. -/
def exQuestionReq : PermissionRequest :=
  { type := "PreToolUse"
    tool_name := "AskUserQuestion"
    tool_input := [("questions", Json.arr [exQuestionJson])]
    session_id := "s1" }

/-- The pending request `handleRequest` creates for `exQuestionReq`. -/
def exQuestionPending : PendingRequest :=
  { id := "rq"
    socket := some 7
    request := .perm exQuestionReq
    slackTs := some "TQ"
    slackChannel := some "C1"
    createdAt := 1000
    isQuestion := true }

/-- A concrete state holding the pending multi-select question. -/
def exQuestionState : ServerState :=
  { pendingRequests := [("rq", exQuestionPending)]
    tsToPendingId := [("TQ", "rq")]
    recentRequestHashes := [(dedupHashOf (.perm exQuestionReq), { requestId := "rq", timestamp := 1000 })] }
/-- The exact reply line the modal-submit handler produces for
`exQuestionState` when the custom answer "hello" is submitted (spelled out
for the Claim C5 counterexample). -/
def c5AllowReply : String :=
  Json.render (Json.obj [("hookSpecificOutput", Json.obj
    [("hookEventName", Json.str "PreToolUse"),
     ("permissionDecision", Json.str "allow"),
     ("permissionDecisionReason", Json.str "Approved via Slack"),
     ("updatedInput", Json.obj
       [("questions", Json.arr [exQuestionJson]),
        ("answers", Json.obj [("Pick", Json.str "hello")])])])]) ++ "\n"

section AssocLemmas

variable {α : Type}

/-- Unfolding `Map.get` one entry at a time. -/
theorem getA_cons (kv : String × α) (m : List (String × α)) (k : String) :
    getA (kv :: m) k = if kv.1 == k then some kv.2 else getA m k := by
  by_cases h : (kv.1 == k) = true
  · simp [getA, List.find?_cons_of_pos, h]
  · have h' : (kv.1 == k) = false := by simpa using h
    simp [getA, List.find?_cons_of_neg, h']

/-- `Map.set` walks past an entry with a different key. -/
theorem setA_cons_ne (kv : String × α) (m : List (String × α)) (k : String) (v : α)
    (h : (kv.1 == k) = false) :
    setA (kv :: m) k v = kv :: setA m k v := by
  unfold setA
  rw [List.any_cons, h, Bool.false_or]
  by_cases ha : (m.any fun kv => kv.1 == k) = true
  · rw [if_pos ha, if_pos ha, List.map_cons, if_neg (by simp [h])]
  · rw [if_neg ha, if_neg ha, List.cons_append]

/-- `Map.set` overwrites an entry with the matching key in place. -/
theorem setA_cons_eq (kv : String × α) (m : List (String × α)) (k : String) (v : α)
    (h : (kv.1 == k) = true) :
    setA (kv :: m) k v
      = (k, v) :: m.map (fun kv => if kv.1 == k then (k, v) else kv) := by
  unfold setA
  rw [List.any_cons, h, Bool.true_or, if_pos rfl, List.map_cons, if_pos h]

/-- `Map.delete` drops an entry with the matching key. -/
theorem eraseA_cons_eq (kv : String × α) (m : List (String × α)) (k : String)
    (h : (kv.1 == k) = true) :
    eraseA (kv :: m) k = eraseA m k := by
  unfold eraseA
  rw [List.filter_cons, if_neg (by simp [bne, h])]

/-- `Map.delete` keeps an entry with a different key. -/
theorem eraseA_cons_ne (kv : String × α) (m : List (String × α)) (k : String)
    (h : (kv.1 == k) = false) :
    eraseA (kv :: m) k = kv :: eraseA m k := by
  unfold eraseA
  rw [List.filter_cons, if_pos (by simp [bne, h])]

/-- Overwriting the value bound to `k` leaves other lookups unchanged. -/
theorem getA_map_overwrite_ne (m : List (String × α)) (k k' : String) (v : α)
    (h : k' ≠ k) :
    getA (m.map (fun kv => if kv.1 == k then (k, v) else kv)) k' = getA m k' := by
  induction m with
  | nil => rfl
  | cons kv rest ih =>
    simp only [List.map_cons]
    by_cases hk : (kv.1 == k) = true
    · have hkv : kv.1 = k := by simpa using hk
      rw [if_pos hk, getA_cons, getA_cons]
      have h1 : (k == k') = false := by
        simpa using fun hh => h hh.symm
      have h2 : (kv.1 == k') = false := by
        rw [hkv]
        simpa using fun hh => h hh.symm
      rw [if_neg (by simp [h1]), if_neg (by simp [h2])]
      exact ih
    · have hk' : (kv.1 == k) = false := by simpa using hk
      rw [if_neg (by simp [hk']), getA_cons, getA_cons]
      rw [ih]

/-- Overwriting the value bound to `k` makes lookups of `k` find it,
provided some entry with key `k` is present. -/
theorem getA_map_overwrite_self (m : List (String × α)) (k : String) (v : α)
    (h : (m.any fun kv => kv.1 == k) = true) :
    getA (m.map (fun kv => if kv.1 == k then (k, v) else kv)) k = some v := by
  induction m with
  | nil => simp at h
  | cons kv rest ih =>
    simp only [List.map_cons]
    by_cases hk : (kv.1 == k) = true
    · rw [if_pos hk, getA_cons, if_pos (by simp)]
    · have hk' : (kv.1 == k) = false := by simpa using hk
      rw [if_neg (by simp [hk']), getA_cons, if_neg (by simp [hk'])]
      apply ih
      rw [List.any_cons, hk', Bool.false_or] at h
      exact h

/-- `Map.get` after `Map.set` with the same key. -/
theorem getA_setA_self (m : List (String × α)) (k : String) (v : α) :
    getA (setA m k v) k = some v := by
  unfold setA
  by_cases ha : (m.any fun kv => kv.1 == k) = true
  · rw [if_pos ha]
    exact getA_map_overwrite_self m k v ha
  · rw [if_neg ha]
    induction m with
    | nil => simp [getA_cons]
    | cons kv rest ih =>
      rw [List.any_cons] at ha
      have hk' : (kv.1 == k) = false := by
        cases hb : (kv.1 == k)
        · rfl
        · exact absurd (by rw [hb, Bool.true_or]) ha
      rw [List.cons_append, getA_cons, if_neg (by simp [hk'])]
      apply ih
      intro hr
      exact ha (by rw [hr, Bool.or_true])

/-- `Map.get` after `Map.set` with a different key. -/
theorem getA_setA_ne (m : List (String × α)) (k k' : String) (v : α) (h : k' ≠ k) :
    getA (setA m k v) k' = getA m k' := by
  unfold setA
  by_cases ha : (m.any fun kv => kv.1 == k) = true
  · rw [if_pos ha]
    exact getA_map_overwrite_ne m k k' v h
  · rw [if_neg ha]
    induction m with
    | nil =>
      have h1 : (k == k') = false := by simpa using fun hh => h hh.symm
      simp [getA_cons, h1]
    | cons kv rest ih =>
      rw [List.cons_append, getA_cons, getA_cons]
      rw [ih (fun hr => ha (by rw [List.any_cons, hr, Bool.or_true]))]

/-- `Map.get` after `Map.delete` with the same key. -/
theorem getA_eraseA_self (m : List (String × α)) (k : String) :
    getA (eraseA m k) k = none := by
  induction m with
  | nil => rfl
  | cons kv rest ih =>
    by_cases hk : (kv.1 == k) = true
    · rw [eraseA_cons_eq kv rest k hk]
      exact ih
    · have hk' : (kv.1 == k) = false := by simpa using hk
      rw [eraseA_cons_ne kv rest k hk', getA_cons, if_neg (by simp [hk'])]
      exact ih

/-- `Map.get` after `Map.delete` with a different key. -/
theorem getA_eraseA_ne (m : List (String × α)) (k k' : String) (h : k' ≠ k) :
    getA (eraseA m k) k' = getA m k' := by
  induction m with
  | nil => rfl
  | cons kv rest ih =>
    by_cases hk : (kv.1 == k) = true
    · have hkv : kv.1 = k := by simpa using hk
      have h2 : (kv.1 == k') = false := by
        rw [hkv]
        simpa using fun hh => h hh.symm
      rw [eraseA_cons_eq kv rest k hk, getA_cons, if_neg (by simp [h2]), ih]
    · have hk' : (kv.1 == k) = false := by simpa using hk
      rw [eraseA_cons_ne kv rest k hk', getA_cons, getA_cons, ih]

/-- An added element is in the set. -/
theorem mem_setAdd_self (s : List String) (x : String) : x ∈ setAdd s x := by
  unfold setAdd
  split
  · assumption
  · simp

end AssocLemmas
section FramingLemmas

/-- `sendResponse` never touches the session approval cache. -/
theorem sendResponse_sessionApprovals (st : ServerState) (pd : PendingRequest)
    (d : Decision) (a : Option (List (String × Answer))) :
    ((sendResponse st pd d a).1).sessionApprovals = st.sessionApprovals := by
  unfold sendResponse
  split <;> rfl

/-- `sendResponse` never touches the deduplication index. -/
theorem sendResponse_recentRequestHashes (st : ServerState) (pd : PendingRequest)
    (d : Decision) (a : Option (List (String × Answer))) :
    ((sendResponse st pd d a).1).recentRequestHashes = st.recentRequestHashes := by
  unfold sendResponse
  split <;> rfl

/-- For a permission request, `buildHookOutput` always succeeds. -/
theorem buildHookOutput_some (pd : PendingRequest) (d : Decision)
    (a : Option (List (String × Answer))) (p : PermissionRequest)
    (hp : pd.request = .perm p) :
    ∃ out, buildHookOutput pd d a = some out := by
  unfold buildHookOutput
  split
  · match a, d with
    | some ans, .allow => rw [hp]; exact ⟨_, rfl⟩
    | some _, .deny => exact ⟨_, rfl⟩
    | none, _ => exact ⟨_, rfl⟩
  · exact ⟨_, rfl⟩

/-- Without attached answers, `buildHookOutput` always succeeds. -/
theorem buildHookOutput_none_answers_some (pd : PendingRequest) (d : Decision) :
    ∃ out, buildHookOutput pd d none = some out := by
  unfold buildHookOutput
  split
  · exact ⟨_, rfl⟩
  · exact ⟨_, rfl⟩

end FramingLemmas
section ToggleLemmas

/-- Toggling preserves distinctness of the selection list. -/
theorem toggleLabel_nodup (label : String) (cur : List String) (h : cur.Nodup) :
    (toggleLabel label cur).Nodup := by
  unfold toggleLabel
  split
  · exact h.erase label
  · case isFalse hmem =>
    rw [List.nodup_append]
    refine ⟨h, List.nodup_singleton label, ?_⟩
    intro a ha hb
    simp only [List.mem_singleton] at hb
    subst hb
    exact hmem (by simpa using List.elem_iff.mpr ha)

/-- Toggling the same label twice restores the selection as a set. -/
theorem mem_toggleLabel_twice (label : String) (cur : List String) (h : cur.Nodup)
    (x : String) :
    x ∈ toggleLabel label (toggleLabel label cur) ↔ x ∈ cur := by
  by_cases hmem : label ∈ cur
  · have h1 : toggleLabel label cur = cur.erase label := by
      unfold toggleLabel
      rw [if_pos (by simpa using List.elem_iff.mpr hmem)]
    have h2 : label ∉ cur.erase label := by
      intro hc
      exact ((h.mem_erase_iff).mp hc).1 rfl
    have h3 : toggleLabel label (cur.erase label) = cur.erase label ++ [label] := by
      unfold toggleLabel
      rw [if_neg (by simpa using fun hc => h2 (List.elem_iff.mp hc))]
    rw [h1, h3]
    simp only [List.mem_append, List.mem_singleton]
    constructor
    · rintro (hx | rfl)
      · exact ((h.mem_erase_iff).mp hx).2
      · exact hmem
    · intro hx
      by_cases hxl : x = label
      · exact Or.inr hxl
      · exact Or.inl ((h.mem_erase_iff).mpr ⟨hxl, hx⟩)
  · have h1 : toggleLabel label cur = cur ++ [label] := by
      unfold toggleLabel
      rw [if_neg (by simpa using fun hc => hmem (List.elem_iff.mp hc))]
    have h2 : toggleLabel label (cur ++ [label]) = cur := by
      unfold toggleLabel
      rw [if_pos (by simp [List.elem_iff])]
      rw [List.erase_append_right _ (by simpa using hmem)]
      simp [List.erase_cons_head]
    rw [h1, h2]

end ToggleLemmas
/-- Claim C1: the fingerprint is claimed to be the tool name plus a canonical
serialization of the entire structured input with keys sorted, equal between
two requests iff tool name and full content (including nested values) agree.
In fact `JSON.stringify(toolInput, Object.keys(toolInput).sort())` uses the
top-level key array as a property allowlist at every nesting level, so the
two distinct inputs `{command:{a:"1"}}` and `{command:{b:"2"}}` both
fingerprint to `Bash:{"command":{}}`: different nested content, same
fingerprint. -/
theorem c1_fingerprint_nested_collision :
    createRequestHash "Bash" [("command", Json.obj [("a", Json.str "1")])]
      = createRequestHash "Bash" [("command", Json.obj [("b", Json.str "2")])]
    ∧ createRequestHash "Bash" [("command", Json.obj [("a", Json.str "1")])]
      = "Bash:\x7b\"command\":\x7b\x7d\x7d"
    ∧ (Json.obj [("a", Json.str "1")] : Json) ≠ Json.obj [("b", Json.str "2")] := by
  refine ⟨rfl, rfl, ?_⟩
  decide

/-- Claim C9: an inbound line that does not parse as JSON is answered with
exactly one `{"decision":"deny"}` reply line followed by closing the
connection, leaving the entire server state (hence every other pending
request) untouched. -/
theorem c9_parse_failure_denies_and_closes (st : ServerState) (c : Nat) (now : Nat)
    (rid : String) (pub : Option PublishOk) :
    step st (.request none c now rid pub)
      = (st, [Effect.write c (Json.render (Json.obj [("decision", Json.str "deny")]) ++ "\n"),
              Effect.closeConn c]) := rfl

/-- Claim C4 (counterexample): in the concrete state holding the unresolved
pending request `r1`, the socket-close event deletes `r1` from the registry
(the registry becomes empty), contradicting the claim that the request is
left in the registry; the prompt is marked timed out. -/
theorem c4_counterexample :
    getA exState.pendingRequests "r1" = some exPending
    ∧ (step exState (Event.socketClosed "r1")).1.pendingRequests = []
    ∧ (step exState (Event.socketClosed "r1")).2
        = [Effect.chatUpdate "C1" "T1" "⏱️ Claude Code Request Timed Out"] :=
  ⟨rfl, rfl, rfl⟩

/-- Claim C4 (amended): when the creating client connection of a still-pending
request closes before a decision, the external prompt is marked timed out,
but the PendingRequest is deleted from the registry (the `tsToPendingId`
entry, however, survives), so later signals and duplicate-attached
connections can no longer resolve it. -/
theorem c4_close_removes_pending (st : ServerState) (rid : String) (pd : PendingRequest)
    (h : getA st.pendingRequests rid = some pd) :
    (step st (.socketClosed rid)).1.pendingRequests = eraseA st.pendingRequests rid
    ∧ (step st (.socketClosed rid)).1.tsToPendingId = st.tsToPendingId
    ∧ (step st (.socketClosed rid)).2
        = (match pd.slackTs, pd.slackChannel with
           | some ts, some ch => [Effect.chatUpdate ch ts "⏱️ Claude Code Request Timed Out"]
           | _, _ => []) := by
  have hs : step st (.socketClosed rid) = handleSocketClose st rid := rfl
  rw [hs]
  unfold handleSocketClose
  rw [h]
  exact ⟨rfl, rfl, rfl⟩

/-- Witness for the amended Claim C4 at the concrete state `exState`. -/
theorem c4_close_removes_pending_witness :
    (step exState (.socketClosed "r1")).1.pendingRequests = eraseA exState.pendingRequests "r1"
    ∧ (step exState (.socketClosed "r1")).1.tsToPendingId = exState.tsToPendingId
    ∧ (step exState (.socketClosed "r1")).2
        = (match exPending.slackTs, exPending.slackChannel with
           | some ts, some ch => [Effect.chatUpdate ch ts "⏱️ Claude Code Request Timed Out"]
           | _, _ => []) :=
  c4_close_removes_pending exState "r1" exPending rfl
/-- Claim C6 (counterexample): in the concrete state where the dedup index
maps `exReq`'s fingerprint to request `r1`, delivering the approve decision
removes the PendingRequest but leaves that dedup-index entry in place,
contradicting the claim that both are removed. -/
theorem c6_counterexample :
    getA exState.recentRequestHashes (dedupHashOf (.perm exReq))
      = some { requestId := "r1", timestamp := 1000 }
    ∧ (step exState (Event.approveClick "r1")).1.pendingRequests = []
    ∧ (step exState (Event.approveClick "r1")).1.recentRequestHashes
        = [(dedupHashOf (.perm exReq), { requestId := "r1", timestamp := 1000 })] :=
  ⟨rfl, rfl, rfl⟩

/-- Claim C6 (amended): after the multiplexer delivers a terminal decision,
the PendingRequest and the `tsToPendingId` entry are removed, each attached
connection is written the one serialized reply line and closed, but the
dedup-index entry for the request's fingerprint is NOT removed at delivery
time — it is only evicted by the periodic sweep once older than the
30-second window. -/
theorem c6_sendResponse_cleanup (st : ServerState) (pd : PendingRequest)
    (d : Decision) (a : Option (List (String × Answer))) (out : Json)
    (h : buildHookOutput pd d a = some out) :
    (sendResponse st pd d a).1.pendingRequests = eraseA st.pendingRequests pd.id
    ∧ (sendResponse st pd d a).1.tsToPendingId
        = (match pd.slackTs with
           | some ts => eraseA st.tsToPendingId ts
           | none => st.tsToPendingId)
    ∧ (sendResponse st pd d a).1.recentRequestHashes = st.recentRequestHashes
    ∧ (sendResponse st pd d a).2
        = writeAndClose (pd.socket.toList ++ pd.additionalSockets.getD [])
            (Json.render out ++ "\n")
    ∧ (∀ st2 now, ((step st2 (.sweepTick now)).1).recentRequestHashes
        = st2.recentRequestHashes.filter
            (fun kv => !decide (DEDUP_WINDOW_MS < now - kv.2.timestamp))) := by
  unfold sendResponse
  rw [h]
  exact ⟨rfl, rfl, rfl, rfl, fun st2 now => rfl⟩

/-- Witness for the amended Claim C6 at the concrete state `exState`. -/
theorem c6_sendResponse_cleanup_witness :
    (sendResponse exState exPending .deny none).1.pendingRequests
      = eraseA exState.pendingRequests exPending.id
    ∧ (sendResponse exState exPending .deny none).1.tsToPendingId
        = (match exPending.slackTs with
           | some ts => eraseA exState.tsToPendingId ts
           | none => exState.tsToPendingId)
    ∧ (sendResponse exState exPending .deny none).1.recentRequestHashes
        = exState.recentRequestHashes
    ∧ (sendResponse exState exPending .deny none).2
        = writeAndClose (exPending.socket.toList ++ exPending.additionalSockets.getD [])
            (Json.render (Json.obj [("hookSpecificOutput", Json.obj
              [("hookEventName", Json.str "PermissionRequest"),
               ("decision", Json.obj [("behavior", Json.str "deny"),
                 ("message", Json.str "Denied via Slack")])])]) ++ "\n")
    ∧ (∀ st2 now, ((step st2 (.sweepTick now)).1).recentRequestHashes
        = st2.recentRequestHashes.filter
            (fun kv => !decide (DEDUP_WINDOW_MS < now - kv.2.timestamp))) :=
  c6_sendResponse_cleanup exState exPending .deny none _ rfl
/-- Claim C3: an `ActionApproval` submission whose fingerprint is already in
the submitting session's approval cache (and that does not attach to a live
dedup entry) is answered immediately on its own connection with the allow
reply and closed; no PendingRequest is created and no prompt is published —
only the dedup index records the attempt. -/
theorem c3_cache_hit_fast_path (st : ServerState) (p : PermissionRequest)
    (c now : Nat) (rid : String) (pub : Option PublishOk)
    (hq : isQuestionRequest (.perm p) = false)
    (hdedup : ∀ e, getA st.recentRequestHashes (dedupHashOf (.perm p)) = some e →
       now - e.timestamp < DEDUP_WINDOW_MS → getA st.pendingRequests e.requestId = none)
    (hcache : (cacheOf st p.session_id).contains
       (createRequestHash p.tool_name p.tool_input) = true) :
    step st (.request (some (.perm p)) c now rid pub)
      = ({ st with recentRequestHashes := setA st.recentRequestHashes (dedupHashOf (.perm p)) { requestId := rid, timestamp := now } },
         [Effect.write c permAllowReply, Effect.closeConn c]) := by
  have hs : step st (.request (some (.perm p)) c now rid pub)
      = handleRequest st (.perm p) c now rid pub := rfl
  rw [hs]
  unfold handleRequest
  rcases hget : getA st.recentRequestHashes (dedupHashOf (.perm p)) with _ | e
  · simp only [hget, hq, hcache, cacheOf] at *
    simp [hcache, cacheOf]
  · simp only [hget, hq]
    by_cases hw : now - e.timestamp < DEDUP_WINDOW_MS
    · simp only [if_pos hw, hdedup e hget hw]
      simp [hcache, cacheOf, hq]
      intro hmem
      exact absurd (List.elem_iff.mp hcache) hmem
    · simp only [if_neg hw]
      simp [hcache, cacheOf, hq]
      intro hmem
      exact absurd (List.elem_iff.mp hcache) hmem
/-- Witness for Claim C3: in `exCachedState` the cached `exReq` is answered
immediately with the allow reply and no prompt. -/
theorem c3_cache_hit_fast_path_witness :
    step exCachedState (.request (some (.perm exReq)) 3 5000 "r9" none)
      = ({ exCachedState with recentRequestHashes := setA exCachedState.recentRequestHashes (dedupHashOf (.perm exReq)) { requestId := "r9", timestamp := 5000 } },
         [Effect.write 3 permAllowReply, Effect.closeConn 3]) :=
  c3_cache_hit_fast_path exCachedState exReq 3 5000 "r9" none rfl
    (fun _ he _ => Option.noConfusion he) (by decide)

/-- Every attached connection is written the reply line. -/
theorem write_mem_writeAndClose (conns : List Nat) (s : String) (c : Nat)
    (hc : c ∈ conns) : Effect.write c s ∈ writeAndClose conns s := by
  induction conns with
  | nil => simp at hc
  | cons x xs ih =>
    unfold writeAndClose
    rcases List.mem_cons.mp hc with rfl | hc2
    · exact List.mem_cons_self _ _
    · exact List.mem_cons_of_mem _ (List.mem_cons_of_mem _ (ih hc2))

/-- Every write performed by the fan-out carries the same string. -/
theorem writeAndClose_write_eq (conns : List Nat) (s : String) (c : Nat) (s' : String)
    (h : Effect.write c s' ∈ writeAndClose conns s) : s' = s := by
  induction conns with
  | nil =>
    unfold writeAndClose at h
    exact absurd h (List.not_mem_nil _)
  | cons x xs ih =>
    unfold writeAndClose at h
    rcases List.mem_cons.mp h with heq | h2
    · cases heq
      rfl
    · rcases List.mem_cons.mp h2 with heq | h3
      · exact Effect.noConfusion heq
      · exact ih h3

/-- Claim C7: (first conjunct) a submission arriving while a live dedup entry
for the same fingerprint points at an existing PendingRequest attaches its
connection to that PendingRequest — no new prompt, no reply, no other state
change; (remaining conjuncts) whenever the multiplexer delivers a decision,
every attached connection is written the reply line, and all written reply
lines are the identical serialized string. -/
theorem c7_dedup_attach_and_identical_fanout :
    (∀ (st : ServerState) (r : Request) (c now : Nat) (rid : String)
       (pub : Option PublishOk) (e : DedupEntry) (pd : PendingRequest),
       getA st.recentRequestHashes (dedupHashOf r) = some e →
       now - e.timestamp < DEDUP_WINDOW_MS →
       getA st.pendingRequests e.requestId = some pd →
       step st (.request (some r) c now rid pub)
         = ({ st with pendingRequests := setA st.pendingRequests e.requestId { pd with socket := none, additionalSockets := some ((pd.additionalSockets.getD []) ++ pd.socket.toList ++ [c]) } },
            []))
    ∧ (∀ (st : ServerState) (pd : PendingRequest) (d : Decision)
         (a : Option (List (String × Answer))) (out : Json),
         buildHookOutput pd d a = some out →
         (∀ c, c ∈ pd.socket.toList ++ pd.additionalSockets.getD [] →
            Effect.write c (Json.render out ++ "\n") ∈ (sendResponse st pd d a).2)
         ∧ (∀ c s, Effect.write c s ∈ (sendResponse st pd d a).2 →
              s = Json.render out ++ "\n")) := by
  constructor
  · intro st r c now rid pub e pd hget hw hpd
    have hs : step st (.request (some r) c now rid pub)
        = handleRequest st r c now rid pub := rfl
    rw [hs]
    unfold handleRequest
    simp only [hget, if_pos hw, hpd]
  · intro st pd d a out hout
    have heff : (sendResponse st pd d a).2
        = writeAndClose (pd.socket.toList ++ pd.additionalSockets.getD [])
            (Json.render out ++ "\n") := by
      unfold sendResponse
      rw [hout]
    rw [heff]
    exact ⟨fun c hc => write_mem_writeAndClose _ _ c hc,
           fun c s hmem => writeAndClose_write_eq _ _ c s hmem⟩

/-- Witness for Claim C7: concrete duplicate attach in `exState`, and the
identical fan-out of the deny reply for a pending request with one duplicate
socket attached. -/
theorem c7_dedup_attach_and_identical_fanout_witness :
    (step exState (.request (some (.perm exReq)) 2 2000 "r2" none)
      = ({ exState with pendingRequests := setA exState.pendingRequests "r1" { exPending with socket := none, additionalSockets := some ((exPending.additionalSockets.getD []) ++ exPending.socket.toList ++ [2]) } },
         []))
    ∧ ((∀ c, c ∈ exPending.socket.toList ++ exPending.additionalSockets.getD [] →
          Effect.write c (Json.render (Json.obj [("hookSpecificOutput", Json.obj [("hookEventName", Json.str "PermissionRequest"), ("decision", Json.obj [("behavior", Json.str "deny"), ("message", Json.str "Denied via Slack")])])]) ++ "\n") ∈ (sendResponse exState exPending .deny none).2)
       ∧ (∀ c s, Effect.write c s ∈ (sendResponse exState exPending .deny none).2 →
            s = Json.render (Json.obj [("hookSpecificOutput", Json.obj [("hookEventName", Json.str "PermissionRequest"), ("decision", Json.obj [("behavior", Json.str "deny"), ("message", Json.str "Denied via Slack")])])]) ++ "\n")) :=
  ⟨c7_dedup_attach_and_identical_fanout.1 exState (.perm exReq) 2 2000 "r2" none
      { requestId := "r1", timestamp := 1000 } exPending rfl (by decide) rfl,
   c7_dedup_attach_and_identical_fanout.2 exState exPending .deny none _ rfl⟩


theorem sendResponse_none_answers_pendingRequests (st : ServerState)
    (pd : PendingRequest) (d : Decision) :
    ((sendResponse st pd d none).1).pendingRequests = eraseA st.pendingRequests pd.id := by
  unfold sendResponse
  obtain ⟨out, hout⟩ := buildHookOutput_none_answers_some pd d
  rw [hout]

theorem approvePermBody_pendingRequests (st : ServerState) (pd : PendingRequest)
    (p : PermissionRequest) :
    ((approvePermBody st pd p).1).pendingRequests = eraseA st.pendingRequests pd.id := by
  unfold approvePermBody
  exact sendResponse_none_answers_pendingRequests _ pd .allow

theorem denyPermBody_pendingRequests (st : ServerState) (pd : PendingRequest) :
    ((denyPermBody st pd).1).pendingRequests = eraseA st.pendingRequests pd.id := by
  unfold denyPermBody
  exact sendResponse_none_answers_pendingRequests _ pd .deny

theorem handleMessage_direct (st : ServerState) (ch txt : String) :
    handleMessage st { channel := ch, text := some txt }
      = (match (findFirstPermPending st ch).map (fun kv => kv.1) with
         | none => (st, [])
         | some requestId =>
           match getA st.pendingRequests requestId with
           | none => (st, [])
           | some pending =>
             if pending.isQuestion then (st, [])
             else
               match pending.request with
               | .perm p =>
                 if approveTexts.contains ((jsTrim (jsToLowerCase txt))) then approvePermBody st pending p
                 else if denyTexts.contains ((jsTrim (jsToLowerCase txt))) then denyPermBody st pending
                 else (st, [])
               | .userQuestion _ _ => (st, [])) := rfl

theorem handleMessage_direct_found (st : ServerState) (ch txt rid : String)
    (pd : PendingRequest) (p : PermissionRequest)
    (hf : findFirstPermPending st ch = some (rid, pd))
    (hg : getA st.pendingRequests rid = some pd)
    (hq : pd.isQuestion = false) (hp : pd.request = .perm p) :
    handleMessage st { channel := ch, text := some txt }
      = (if approveTexts.contains ((jsTrim (jsToLowerCase txt))) then approvePermBody st pd p
         else if denyTexts.contains ((jsTrim (jsToLowerCase txt))) then denyPermBody st pd
         else (st, [])) := by
  rw [handleMessage_direct, hf]
  simp only [Option.map_some']
  rw [hg]
  simp only [hq, Bool.false_eq_true, if_false, hp]

/-- Claim C8 statement (see final file). -/
theorem c8_message_resolves_first_matching_pending :
    (∀ (st : ServerState) (ch txt : String),
       findFirstPermPending st ch = none →
       step st (.message { channel := ch, text := some txt }) = (st, []))
    ∧ (∀ (st : ServerState) (ch txt rid : String) (pd : PendingRequest)
         (p : PermissionRequest),
         findFirstPermPending st ch = some (rid, pd) →
         getA st.pendingRequests rid = some pd →
         pd.request = .perm p →
         (approveTexts.contains ((jsTrim (jsToLowerCase txt))) = true →
            step st (.message { channel := ch, text := some txt }) = approvePermBody st pd p)
         ∧ (denyTexts.contains ((jsTrim (jsToLowerCase txt))) = true →
            step st (.message { channel := ch, text := some txt }) = denyPermBody st pd))
    ∧ (∀ (st : ServerState) (ch txt rid : String) (pd : PendingRequest),
         (∀ k q, getA st.pendingRequests k = some q → q.id = k) →
         getA st.pendingRequests rid = some pd → pd.isQuestion = true →
         getA ((step st (.message { channel := ch, text := some txt })).1).pendingRequests rid
           = some pd) := by
  have hstep : ∀ (st : ServerState) (ch txt : String),
      step st (.message { channel := ch, text := some txt })
        = handleMessage st { channel := ch, text := some txt } := fun _ _ _ => rfl
  refine ⟨?_, ?_, ?_⟩
  · intro st ch txt hnone
    rw [hstep, handleMessage_direct, hnone]
    rfl
  · intro st ch txt rid pd p hf hg hp
    have hq : pd.isQuestion = false := by
      have := List.find?_some hf
      simp only [Bool.and_eq_true, Bool.not_eq_true'] at this
      exact this.2
    constructor
    · intro ha
      rw [hstep, handleMessage_direct_found st ch txt rid pd p hf hg hq hp, if_pos ha]
    · intro hd
      have ha : approveTexts.contains ((jsTrim (jsToLowerCase txt))) = false := by
        generalize (jsTrim (jsToLowerCase txt)) = t at hd ⊢
        have hmem : t ∈ denyTexts := List.elem_iff.mp hd
        simp only [denyTexts, List.mem_cons, List.mem_singleton] at hmem
        rcases hmem with h | h | h | h | h | h | h
        · rw [h]; decide
        · rw [h]; decide
        · rw [h]; decide
        · rw [h]; decide
        · rw [h]; decide
        · rw [h]; decide
        · exact absurd h (List.not_mem_nil _)
      rw [hstep, handleMessage_direct_found st ch txt rid pd p hf hg hq hp,
          if_neg (by rw [ha]; exact Bool.false_ne_true), if_pos hd]
  · intro st ch txt rid pd hwf hg hq
    rw [hstep, handleMessage_direct]
    rcases hf : findFirstPermPending st ch with _ | rp
    · exact hg
    · obtain ⟨rid2, pd2⟩ := rp
      simp only [Option.map_some']
      rcases hg2 : getA st.pendingRequests rid2 with _ | q
      · exact hg
      · have hqid : q.id = rid2 := hwf rid2 q hg2
        by_cases hqq : q.isQuestion = true
        · simp only [hqq, if_true]
          exact hg
        · have hqq' : q.isQuestion = false := by simpa using hqq
          have hne : rid ≠ rid2 := by
            intro hcontra
            subst hcontra
            rw [hg] at hg2
            cases hg2
            rw [hqq'] at hq
            exact Bool.noConfusion hq
          simp only [hqq', Bool.false_eq_true, if_false]
          rcases hreq : q.request with p2 | ⟨sid, qs⟩
          · by_cases ha : approveTexts.contains ((jsTrim (jsToLowerCase txt))) = true
            · simp only [ha, if_true]
              rw [approvePermBody_pendingRequests, hqid]
              exact (getA_eraseA_ne _ rid2 rid hne).trans hg
            · have ha' : approveTexts.contains ((jsTrim (jsToLowerCase txt))) = false := by simpa using ha
              by_cases hd : denyTexts.contains ((jsTrim (jsToLowerCase txt))) = true
              · simp only [ha', hd, Bool.false_eq_true, if_false, if_true]
                rw [denyPermBody_pendingRequests, hqid]
                exact (getA_eraseA_ne _ rid2 rid hne).trans hg
              · have hd' : denyTexts.contains ((jsTrim (jsToLowerCase txt))) = false := by simpa using hd
                simp only [ha', hd', Bool.false_eq_true, if_false]
                exact hg
          · exact hg

theorem denyPermBody_sessionApprovals (st : ServerState) (pd : PendingRequest) :
    ((denyPermBody st pd).1).sessionApprovals = st.sessionApprovals := by
  unfold denyPermBody
  rw [sendResponse_sessionApprovals]

theorem approvePermBody_sessionApprovals (st : ServerState) (pd : PendingRequest)
    (p : PermissionRequest) :
    ((approvePermBody st pd p).1).sessionApprovals
      = setA st.sessionApprovals p.session_id
          (setAdd (cacheOf st p.session_id) (createRequestHash p.tool_name p.tool_input)) := by
  unfold approvePermBody
  rw [sendResponse_sessionApprovals]

theorem handleRequest_sessionApprovals (st : ServerState) (r : Request) (c now : Nat)
    (rid : String) (pub : Option PublishOk) :
    ((handleRequest st r c now rid pub).1).sessionApprovals = st.sessionApprovals := by
  unfold handleRequest
  rcases hget : getA st.recentRequestHashes (dedupHashOf r) with _ | e
  · simp only [hget]
    (repeat' split) <;> rfl
  · simp only [hget]
    by_cases hw : now - e.timestamp < DEDUP_WINDOW_MS
    · simp only [if_pos hw]
      rcases hep : getA st.pendingRequests e.requestId with _ | ep
      all_goals simp only [hep]
      all_goals (repeat' split) <;> rfl
    · simp only [if_neg hw]
      (repeat' split) <;> rfl

theorem handleDenyAction_sessionApprovals (st : ServerState) (rid : String) :
    ((handleDenyAction st rid).1).sessionApprovals = st.sessionApprovals := by
  unfold handleDenyAction
  repeat' split
  all_goals first | rfl | rw [denyPermBody_sessionApprovals]

theorem handleReactionAdded_sessionApprovals_no_approve (st : ServerState)
    (ts r : String) (h : approveReactions.contains r = false) :
    ((handleReactionAdded st ts r).1).sessionApprovals = st.sessionApprovals := by
  unfold handleReactionAdded
  simp only [h, Bool.false_eq_true, if_false]
  repeat' split
  all_goals first | rfl | rw [denyPermBody_sessionApprovals]

theorem handleMessage_sessionApprovals_no_approve (st : ServerState) (msg : MessageEvent)
    (h : ∀ txt, msg.text = some txt → approveTexts.contains ((jsTrim (jsToLowerCase txt))) = false) :
    ((handleMessage st msg).1).sessionApprovals = st.sessionApprovals := by
  rcases hmt : msg.text with _ | rawText
  · unfold handleMessage
    simp only [hmt]
    repeat' split
    all_goals rfl
  · have hc := h rawText hmt
    unfold handleMessage
    simp only [hmt, hc, Bool.false_eq_true, if_false]
    repeat' split
    all_goals first | rfl | rw [denyPermBody_sessionApprovals]

theorem handleQuestionAction_sessionApprovals (st : ServerState) (d : QuestionActionData) :
    ((handleQuestionAction st d).1).sessionApprovals = st.sessionApprovals := by
  unfold handleQuestionAction
  dsimp only
  repeat' split
  all_goals first | rfl | rw [sendResponse_sessionApprovals]

theorem handleQuestionOtherSubmit_sessionApprovals (st : ServerState) (rid : String)
    (qi : Nat) (ca : String) :
    ((handleQuestionOtherSubmit st rid qi ca).1).sessionApprovals = st.sessionApprovals := by
  unfold handleQuestionOtherSubmit
  dsimp only
  repeat' split
  all_goals first | rfl | rw [sendResponse_sessionApprovals]

theorem handleConfirmMultiselect_sessionApprovals (st : ServerState) (rid : String) :
    ((handleConfirmMultiselect st rid).1).sessionApprovals = st.sessionApprovals := by
  unfold handleConfirmMultiselect
  dsimp only
  repeat' split
  all_goals first | rfl | rw [sendResponse_sessionApprovals]

theorem handleSocketClose_sessionApprovals (st : ServerState) (rid : String) :
    ((handleSocketClose st rid).1).sessionApprovals = st.sessionApprovals := by
  unfold handleSocketClose
  repeat' split
  all_goals rfl

theorem sweep_sessionApprovals (st : ServerState) (now : Nat) :
    ((sweep st now).1).sessionApprovals = st.sessionApprovals := rfl

theorem handleApproveAction_found (st : ServerState) (rid : String)
    (pd : PendingRequest) (p : PermissionRequest)
    (hg : getA st.pendingRequests rid = some pd) (hp : pd.request = .perm p) :
    handleApproveAction st rid = approvePermBody st pd p := by
  unfold handleApproveAction
  rw [hg]
  simp only [hp]

theorem handleDenyAction_found (st : ServerState) (rid : String)
    (pd : PendingRequest) (p : PermissionRequest)
    (hg : getA st.pendingRequests rid = some pd) (hp : pd.request = .perm p) :
    handleDenyAction st rid = denyPermBody st pd := by
  unfold handleDenyAction
  rw [hg]
  simp only [hp]

theorem handleReactionAdded_found_approve (st : ServerState) (ts r rid : String)
    (pd : PendingRequest) (p : PermissionRequest)
    (hts : getA st.tsToPendingId ts = some rid)
    (hg : getA st.pendingRequests rid = some pd)
    (hqf : pd.isQuestion = false) (hp : pd.request = .perm p)
    (ha : approveReactions.contains r = true) :
    handleReactionAdded st ts r = approvePermBody st pd p := by
  unfold handleReactionAdded
  rw [hts]
  simp only []
  rw [hg]
  simp only [hqf, Bool.false_eq_true, if_false, hp, ha, if_true]

theorem denyPermBody_recentRequestHashes (st : ServerState) (pd : PendingRequest) :
    ((denyPermBody st pd).1).recentRequestHashes = st.recentRequestHashes := by
  unfold denyPermBody
  rw [sendResponse_recentRequestHashes]

/-- Claim C2: the Session Approval Cache grows only by explicit human
approval of an `ActionApproval`: the approve button, an approve reaction and
an approve text reply each add the resolved request's fingerprint to its
session's cache; deny signals (button, reaction, text) and every other event
leave the cache unchanged; consequently, after a denial an identical
resubmission misses the cache and publishes a new prompt instead of being
auto-granted. -/
theorem c2_cache_grows_only_by_human_approval :
    (∀ (st : ServerState) (rid : String) (pd : PendingRequest) (p : PermissionRequest),
       getA st.pendingRequests rid = some pd → pd.request = .perm p →
       createRequestHash p.tool_name p.tool_input
         ∈ cacheOf ((step st (.approveClick rid)).1) p.session_id)
    ∧ (∀ (st : ServerState) (ts r rid : String) (pd : PendingRequest) (p : PermissionRequest),
        approveReactions.contains r = true →
        getA st.tsToPendingId ts = some rid →
        getA st.pendingRequests rid = some pd →
        pd.isQuestion = false → pd.request = .perm p →
        createRequestHash p.tool_name p.tool_input
          ∈ cacheOf ((step st (.reaction ts r)).1) p.session_id)
    ∧ (∀ (st : ServerState) (ch txt rid : String) (pd : PendingRequest) (p : PermissionRequest),
        approveTexts.contains ((jsTrim (jsToLowerCase txt))) = true →
        findFirstPermPending st ch = some (rid, pd) →
        getA st.pendingRequests rid = some pd →
        pd.request = .perm p →
        createRequestHash p.tool_name p.tool_input
          ∈ cacheOf ((step st (.message { channel := ch, text := some txt })).1) p.session_id)
    ∧ (∀ (st : ServerState) (rid : String),
        ((step st (.denyClick rid)).1).sessionApprovals = st.sessionApprovals)
    ∧ (∀ (st : ServerState) (ts r : String), approveReactions.contains r = false →
        ((step st (.reaction ts r)).1).sessionApprovals = st.sessionApprovals)
    ∧ (∀ (st : ServerState) (msg : MessageEvent),
        (∀ txt, msg.text = some txt → approveTexts.contains ((jsTrim (jsToLowerCase txt))) = false) →
        ((step st (.message msg)).1).sessionApprovals = st.sessionApprovals)
    ∧ (∀ (st : ServerState) (pr : Option Request) (s n : Nat) (rid : String)
         (pub : Option PublishOk),
        ((step st (.request pr s n rid pub)).1).sessionApprovals = st.sessionApprovals)
    ∧ (∀ (st : ServerState) (d : QuestionActionData),
        ((step st (.questionOption d)).1).sessionApprovals = st.sessionApprovals)
    ∧ (∀ (st : ServerState) (rid : String) (qi : Nat) (ca : String),
        ((step st (.questionOtherSubmit rid qi ca)).1).sessionApprovals = st.sessionApprovals)
    ∧ (∀ (st : ServerState) (rid : String),
        ((step st (.confirmMultiselect rid)).1).sessionApprovals = st.sessionApprovals)
    ∧ (∀ (st : ServerState) (rid : String),
        ((step st (.socketClosed rid)).1).sessionApprovals = st.sessionApprovals)
    ∧ (∀ (st : ServerState) (n : Nat),
        ((step st (.sweepTick n)).1).sessionApprovals = st.sessionApprovals)
    ∧ (∀ (st : ServerState) (rid : String) (pd : PendingRequest) (p : PermissionRequest)
         (c now2 : Nat) (rid2 : String) (ok : PublishOk),
        getA st.pendingRequests rid = some pd → pd.request = .perm p → pd.id = rid →
        isQuestionRequest (.perm p) = false →
        createRequestHash p.tool_name p.tool_input ∉ cacheOf st p.session_id →
        (∀ e, getA st.recentRequestHashes (dedupHashOf (.perm p)) = some e →
           e.requestId = rid) →
        (step (step st (.denyClick rid)).1
           (.request (some (.perm p)) c now2 rid2 (some ok))).2 = [Effect.postMessage]) := by
  have happroveCache : ∀ (st : ServerState) (pd : PendingRequest) (p : PermissionRequest),
      createRequestHash p.tool_name p.tool_input
        ∈ cacheOf ((approvePermBody st pd p).1) p.session_id := by
    intro st pd p
    unfold cacheOf
    rw [approvePermBody_sessionApprovals, getA_setA_self]
    exact mem_setAdd_self _ _
  refine ⟨?_, ?_, ?_, ?_, ?_, ?_, ?_, ?_, ?_, ?_, ?_, ?_, ?_⟩
  · intro st rid pd p hg hp
    have h1 : step st (.approveClick rid) = approvePermBody st pd p :=
      handleApproveAction_found st rid pd p hg hp
    rw [h1]
    exact happroveCache st pd p
  · intro st ts r rid pd p ha hts hg hqf hp
    have h1 : step st (.reaction ts r) = approvePermBody st pd p :=
      handleReactionAdded_found_approve st ts r rid pd p hts hg hqf hp ha
    rw [h1]
    exact happroveCache st pd p
  · intro st ch txt rid pd p ha hf hg hp
    have hq : pd.isQuestion = false := by
      have := List.find?_some hf
      simp only [Bool.and_eq_true, Bool.not_eq_true'] at this
      exact this.2
    have h1 : step st (.message { channel := ch, text := some txt })
        = approvePermBody st pd p := by
      have hs : step st (.message { channel := ch, text := some txt })
          = handleMessage st { channel := ch, text := some txt } := rfl
      rw [hs, handleMessage_direct_found st ch txt rid pd p hf hg hq hp, if_pos ha]
    rw [h1]
    exact happroveCache st pd p
  · intro st rid
    exact handleDenyAction_sessionApprovals st rid
  · intro st ts r h
    exact handleReactionAdded_sessionApprovals_no_approve st ts r h
  · intro st msg h
    exact handleMessage_sessionApprovals_no_approve st msg h
  · intro st pr s n rid pub
    rcases pr with _ | r
    · rfl
    · exact handleRequest_sessionApprovals st r s n rid pub
  · intro st d
    exact handleQuestionAction_sessionApprovals st d
  · intro st rid qi ca
    exact handleQuestionOtherSubmit_sessionApprovals st rid qi ca
  · intro st rid
    exact handleConfirmMultiselect_sessionApprovals st rid
  · intro st rid
    exact handleSocketClose_sessionApprovals st rid
  · intro st n
    exact sweep_sessionApprovals st n
  · intro st rid pd p c now2 rid2 ok hg hp hid hq hnotc hded
    have hdeny : step st (.denyClick rid) = denyPermBody st pd :=
      handleDenyAction_found st rid pd p hg hp
    rw [hdeny]
    have h1 : ((denyPermBody st pd).1).recentRequestHashes = st.recentRequestHashes :=
      denyPermBody_recentRequestHashes st pd
    have h2 : ((denyPermBody st pd).1).pendingRequests = eraseA st.pendingRequests rid := by
      rw [denyPermBody_pendingRequests, hid]
    have h3 : ((denyPermBody st pd).1).sessionApprovals = st.sessionApprovals :=
      denyPermBody_sessionApprovals st pd
    generalize hst2 : (denyPermBody st pd).1 = st2 at h1 h2 h3
    have hcontains : ((getA st2.sessionApprovals p.session_id).getD []).contains
        (createRequestHash p.tool_name p.tool_input) = false := by
      rw [h3]
      cases hcc : ((getA st.sessionApprovals p.session_id).getD []).contains
          (createRequestHash p.tool_name p.tool_input)
      · rfl
      · exact absurd (List.elem_iff.mp hcc) hnotc
    have hs : step st2 (.request (some (.perm p)) c now2 rid2 (some ok))
        = handleRequest st2 (.perm p) c now2 rid2 (some ok) := rfl
    rw [hs]
    unfold handleRequest
    rcases hget2 : getA st2.recentRequestHashes (dedupHashOf (.perm p)) with _ | e
    · simp only [hget2, hq, cacheOf, hcontains, Bool.false_eq_true, if_false, Bool.false_and]
    · have he : e.requestId = rid := hded e (by rw [← h1]; exact hget2)
      by_cases hw : now2 - e.timestamp < DEDUP_WINDOW_MS
      · have hnone : getA st2.pendingRequests e.requestId = none := by
          rw [h2, he]
          exact getA_eraseA_self _ _
        simp only [hget2, if_pos hw, hnone, hq, cacheOf, hcontains, Bool.false_eq_true,
          if_false, Bool.false_and]
      · simp only [hget2, if_neg hw, hq, cacheOf, hcontains, Bool.false_eq_true,
          if_false, Bool.false_and]


theorem questionOption_toggle_step (st : ServerState) (rid : String) (i : Nat)
    (label : String) (pd : PendingRequest) (q : Question) (cur : List String)
    (hg : getA st.pendingRequests rid = some pd)
    (hqi : (getQuestions pd.request)[i]? = some q)
    (hqm : q.isMultiSelect = true)
    (hcur : answersArrayForToggle (getA (pd.answers.getD []) (toString i)) = some cur) :
    step st (.questionOption ⟨rid, i, 0, label⟩)
      = ({ st with pendingRequests := setA st.pendingRequests rid { pd with answers := some (setA (pd.answers.getD []) (toString i) (Answer.multi (toggleLabel label cur))) } }, []) := by
  have hmem : q ∈ getQuestions pd.request := List.getElem?_mem hqi
  have hms : (getQuestions pd.request).any Question.isMultiSelect = true :=
    List.any_eq_true.mpr ⟨q, hmem, hqm⟩
  have hs : step st (.questionOption ⟨rid, i, 0, label⟩)
      = handleQuestionAction st ⟨rid, i, 0, label⟩ := rfl
  rw [hs]
  unfold handleQuestionAction
  rw [hg]
  dsimp only
  rw [if_neg (by decide : ¬(((0 : Int) == -1) = true))]
  rw [hqi]
  dsimp only
  rw [if_pos hqm, hcur]
  dsimp only
  simp only [hms, Bool.not_true, Bool.and_false, Bool.false_eq_true, if_false]

/-- Claim C10: on a pending question request, sending the option-selection
signal for the same label of a multi-select question twice in succession
leaves that question's recorded answer list with exactly the same members as
before (in particular, toggling from the unselected state twice ends
unselected), and the request stays pending. -/
theorem c10_toggle_twice_restores_answer_set :
    ∀ (st : ServerState) (rid : String) (i : Nat) (label : String)
      (pd : PendingRequest) (q : Question) (cur : List String),
      getA st.pendingRequests rid = some pd →
      (getQuestions pd.request)[i]? = some q →
      q.isMultiSelect = true →
      (getA (pd.answers.getD []) (toString i) = some (Answer.multi cur)
        ∨ (getA (pd.answers.getD []) (toString i) = none ∧ cur = [])) →
      cur.Nodup →
      ∃ pd₂ cur₂,
        getA ((step (step st (.questionOption ⟨rid, i, 0, label⟩)).1
                 (.questionOption ⟨rid, i, 0, label⟩)).1).pendingRequests rid = some pd₂
        ∧ getA (pd₂.answers.getD []) (toString i) = some (Answer.multi cur₂)
        ∧ (∀ x, x ∈ cur₂ ↔ x ∈ cur) := by
  intro st rid i label pd q cur hg hqi hqm hans hnd
  have hcur : answersArrayForToggle (getA (pd.answers.getD []) (toString i)) = some cur := by
    rcases hans with h | ⟨h, rfl⟩
    · rw [h]
      rfl
    · rw [h]
      rfl
  have h1 := questionOption_toggle_step st rid i label pd q cur hg hqi hqm hcur
  rw [h1]
  set ans1 := setA (pd.answers.getD []) (toString i) (Answer.multi (toggleLabel label cur)) with hans1
  set pd1 : PendingRequest := { pd with answers := some ans1 } with hpd1
  have hg1 : getA (setA st.pendingRequests rid pd1) rid = some pd1 := getA_setA_self _ _ _
  have hqi1 : (getQuestions pd1.request)[i]? = some q := hqi
  have hcur1 : answersArrayForToggle (getA (pd1.answers.getD []) (toString i))
      = some (toggleLabel label cur) := by
    show answersArrayForToggle (getA ans1 (toString i)) = some (toggleLabel label cur)
    rw [hans1, getA_setA_self]
    rfl
  have h2 := questionOption_toggle_step
    { st with pendingRequests := setA st.pendingRequests rid pd1 } rid i label pd1 q
    (toggleLabel label cur) hg1 hqi1 hqm hcur1
  rw [h2]
  refine ⟨_, toggleLabel label (toggleLabel label cur), getA_setA_self _ _ _, ?_, ?_⟩
  · show getA (setA ans1 (toString i) (Answer.multi (toggleLabel label (toggleLabel label cur)))) (toString i)
      = some (Answer.multi (toggleLabel label (toggleLabel label cur)))
    exact getA_setA_self _ _ _
  · exact mem_toggleLabel_twice label cur hnd


theorem c5_single_step (st : ServerState) (rid : String) (pd : PendingRequest)
    (d : QuestionActionData) (hdid : d.requestId = rid)
    (hg : getA st.pendingRequests rid = some pd)
    (hms : (getQuestions pd.request).any Question.isMultiSelect = true) :
    ∃ pd', getA ((step st (.questionOption d)).1).pendingRequests rid = some pd'
      ∧ pd'.request = pd.request
      ∧ ∀ c s, Effect.write c s ∉ (step st (.questionOption d)).2 := by
  obtain ⟨dr, di, do_, dl⟩ := d
  cases hdid
  have hs : step st (.questionOption ⟨dr, di, do_, dl⟩)
      = handleQuestionAction st ⟨dr, di, do_, dl⟩ := rfl
  rw [hs]
  unfold handleQuestionAction
  rw [hg]
  dsimp only
  by_cases hopt : ((do_ == -1) = true)
  · rw [if_pos hopt]
    exact ⟨pd, hg, rfl, by simp⟩
  · rw [if_neg hopt]
    rcases hqi : (getQuestions pd.request)[di]? with _ | q
    · exact ⟨_, getA_setA_self _ _ _, rfl, by simp⟩
    · dsimp only
      by_cases hqm : (q.isMultiSelect = true)
      · rw [if_pos hqm]
        rcases hcur : answersArrayForToggle (getA (pd.answers.getD []) (toString di)) with _ | cur
        · dsimp only
          exact ⟨_, getA_setA_self _ _ _, rfl, by simp⟩
        · dsimp only
          simp only [hms, Bool.not_true, Bool.and_false, Bool.false_eq_true, if_false]
          exact ⟨_, getA_setA_self _ _ _, rfl, by simp⟩
      · rw [if_neg hqm]
        dsimp only
        simp only [hms, Bool.not_true, Bool.and_false, Bool.false_eq_true, if_false]
        exact ⟨_, getA_setA_self _ _ _, rfl, by simp⟩

/-- Claim C5 (amended): option-selection signals alone never resolve a
pending request that contains a multi-select question — after any sequence of
option-selection signals for that request the request is still in the
registry with its questions unchanged and no reply line has been written.
(The original claim also covered custom-text modal answers; those DO resolve
the request without a confirmation signal, see `c5_counterexample`.) -/
theorem c5_option_selection_never_resolves :
    ∀ (evs : List Event) (st : ServerState) (rid : String) (pd : PendingRequest),
      (∀ e ∈ evs, ∃ d : QuestionActionData, e = .questionOption d ∧ d.requestId = rid) →
      getA st.pendingRequests rid = some pd →
      (getQuestions pd.request).any Question.isMultiSelect = true →
      ∃ pd', getA ((runEvents st evs).1).pendingRequests rid = some pd'
        ∧ pd'.request = pd.request
        ∧ ∀ c s, Effect.write c s ∉ (runEvents st evs).2 := by
  intro evs
  induction evs with
  | nil =>
    intro st rid pd _ hg _
    exact ⟨pd, hg, rfl, by simp [runEvents]⟩
  | cons e rest ih =>
    intro st rid pd hall hg hms
    obtain ⟨d, rfl, hdid⟩ := hall e (List.mem_cons_self _ _)
    obtain ⟨pd1, hg1, hreq1, heff1⟩ := c5_single_step st rid pd d hdid hg hms
    have hms1 : (getQuestions pd1.request).any Question.isMultiSelect = true := by
      rw [hreq1]
      exact hms
    obtain ⟨pd2, hg2, hreq2, heff2⟩ :=
      ih ((step st (.questionOption d)).1) rid pd1
        (fun e2 he2 => hall e2 (List.mem_cons_of_mem _ he2)) hg1 hms1
    refine ⟨pd2, ?_, hreq2.trans hreq1, ?_⟩
    · show getA ((runEvents ((step st (.questionOption d)).1) rest).1).pendingRequests rid
        = some pd2
      exact hg2
    · intro c s hmem
      have : (runEvents st (Event.questionOption d :: rest)).2
          = (step st (.questionOption d)).2
            ++ (runEvents ((step st (.questionOption d)).1) rest).2 := rfl
      rw [this] at hmem
      rcases List.mem_append.mp hmem with h | h
      · exact heff1 c s h
      · exact heff2 c s h

/-- Claim C5 (counterexample): `exQuestionState` holds a pending
`AskUserQuestion` request whose single question is multi-select, yet a single
custom-text modal submission ("hello") — with no multi-select confirmation
signal — removes the request from the registry and writes the terminal allow
reply to its socket, because the modal-submit handler's completion check has
no multi-select exception. -/
theorem c5_counterexample :
    (getQuestions exQuestionPending.request).any Question.isMultiSelect = true
    ∧ getA ((step exQuestionState (.questionOtherSubmit "rq" 0 "hello")).1).pendingRequests "rq"
        = none
    ∧ (step exQuestionState (.questionOtherSubmit "rq" 0 "hello")).2
        = [Effect.chatUpdate "C1" "TQ" "✅ Claude Code Question Answered",
           Effect.write 7 c5AllowReply, Effect.closeConn 7] :=
  ⟨rfl, rfl, rfl⟩
/-- Witness for Claim C8: in `exState`, the direct message " OK" (lowercased
and trimmed to "ok") resolves the first matching pending request via the
approval block. -/
theorem c8_message_resolves_first_matching_pending_witness :
    step exState (.message { channel := "C1", text := some " OK" })
      = approvePermBody exState exPending exReq :=
  (c8_message_resolves_first_matching_pending.2.1 exState "C1" " OK" "r1" exPending exReq
      rfl rfl rfl).1 (by rfl)

/-- Witness for Claim C2: approving `r1` caches `exReq`'s fingerprint for
session `s1`, and after denying `r1` an identical resubmission publishes a
fresh prompt. -/
theorem c2_cache_grows_only_by_human_approval_witness :
    createRequestHash exReq.tool_name exReq.tool_input
      ∈ cacheOf ((step exState (.approveClick "r1")).1) exReq.session_id
    ∧ (step (step exState (.denyClick "r1")).1
         (.request (some (.perm exReq)) 5 2000 "r5" (some { ts := some "T5", channel := "C1" }))).2
        = [Effect.postMessage] :=
  ⟨c2_cache_grows_only_by_human_approval.1 exState "r1" exPending exReq rfl rfl,
   c2_cache_grows_only_by_human_approval.2.2.2.2.2.2.2.2.2.2.2.2 exState "r1" exPending exReq
     5 2000 "r5" { ts := some "T5", channel := "C1" } rfl rfl rfl rfl (by decide)
     (fun e he => by
        rw [show e = { requestId := "r1", timestamp := 1000 } from (Option.some.inj he).symm])⟩

/-- Witness for the amended Claim C5: one toggle of option "A" leaves the
multi-select question pending, with no reply written. -/
theorem c5_option_selection_never_resolves_witness :
    ∃ pd', getA ((runEvents exQuestionState
          [.questionOption ⟨"rq", 0, 0, "A"⟩]).1).pendingRequests "rq" = some pd'
      ∧ pd'.request = exQuestionPending.request
      ∧ ∀ c s, Effect.write c s
          ∉ (runEvents exQuestionState [.questionOption ⟨"rq", 0, 0, "A"⟩]).2 :=
  c5_option_selection_never_resolves [.questionOption ⟨"rq", 0, 0, "A"⟩] exQuestionState "rq"
    exQuestionPending
    (fun e he => by
       rw [List.mem_singleton.mp he]
       exact ⟨⟨"rq", 0, 0, "A"⟩, rfl, rfl⟩)
    rfl rfl

/-- Witness for Claim C10 at the concrete multi-select question state. -/
theorem c10_toggle_twice_restores_answer_set_witness :
    ∃ pd₂ cur₂,
      getA ((step (step exQuestionState (.questionOption ⟨"rq", 0, 0, "A"⟩)).1
               (.questionOption ⟨"rq", 0, 0, "A"⟩)).1).pendingRequests "rq" = some pd₂
      ∧ getA (pd₂.answers.getD []) (toString 0) = some (Answer.multi cur₂)
      ∧ (∀ x, x ∈ cur₂ ↔ x ∈ ([] : List String)) :=
  c10_toggle_twice_restores_answer_set exQuestionState "rq" 0 "A" exQuestionPending
    (decodeQuestion exQuestionJson) [] rfl rfl rfl (Or.inr ⟨rfl, rfl⟩) List.nodup_nil
